import Mathlib

/-!
Verification of the walk-in interview drive portal (Express + in-memory
`MemStorage`).  The server keeps each entity kind in a JS `Map` keyed by a
monotonically increasing integer id; HTTP routes translate REST calls into
store operations.  We embed the store as association lists `List (Nat × α)`
(key/value pairs in insertion order, matching JS `Map` iteration order) and
each route/storage method as a pure state-passing function translated from
`server/routes.ts` and the `MemStorage` class.
-/

namespace Portal

/-! ### JS `Map` model: association list keyed by `Nat`, insertion order -/

/-- `Map.get(k)`: first entry with the key, if any. -/
def mapGet {α : Type} (m : List (Nat × α)) (k : Nat) : Option α :=
  (m.find? (fun e => e.1 == k)).map (fun e => e.2)

/-- `Map.set(k, v)`: replace in place if the key exists (JS maps keep the
original insertion position), otherwise append. -/
def mapSet {α : Type} (m : List (Nat × α)) (k : Nat) (v : α) : List (Nat × α) :=
  if m.any (fun e => e.1 == k) then
    m.map (fun e => if e.1 == k then (k, v) else e)
  else
    m ++ [(k, v)]

/-- `Map.delete(k)`: remove the entry; returns whether it existed. -/
def mapDelete {α : Type} (m : List (Nat × α)) (k : Nat) : List (Nat × α) × Bool :=
  (m.filter (fun e => e.1 != k), m.any (fun e => e.1 == k))

/-- `Array.from(map.values())`: values in insertion order. -/
def mapValues {α : Type} (m : List (Nat × α)) : List α :=
  m.map (fun e => e.2)

/-! ### Data model (shared/schema.ts) -/

/-- Candidate row.  `timestamp` is the registration `Date` as epoch
milliseconds; nullable columns are `Option`s. -/
structure Candidate where
  id : Nat
  serialNo : String
  name : String
  email : String
  position : String
  timestamp : Nat
  status : String
  currentRound : String
  assignedPanel : Option Nat
  roomNo : Option String
  qrCodeUrl : Option String
deriving DecidableEq, Repr

/-- `InsertCandidate` (fields accepted by `createCandidate`); optional
fields are `Option`s, `none` standing for absent/null. -/
structure InsertCandidate where
  serialNo : String
  name : String
  email : String
  position : String
  timestamp : Nat
  status : Option String
  currentRound : Option String
  assignedPanel : Option Nat
  roomNo : Option String
  qrCodeUrl : Option String
deriving DecidableEq, Repr

/-- `Partial<Candidate>` as used by `updateCandidate`: every field may be
absent (`none`).  A present-but-null nullable column is `some none`. -/
structure CandidateUpdate where
  id : Option Nat := none
  serialNo : Option String := none
  name : Option String := none
  email : Option String := none
  position : Option String := none
  timestamp : Option Nat := none
  status : Option String := none
  currentRound : Option String := none
  assignedPanel : Option (Option Nat) := none
  roomNo : Option (Option String) := none
  qrCodeUrl : Option (Option String) := none
deriving DecidableEq, Repr

/-- Feedback row (interviewer → candidate). -/
structure Feedback where
  id : Nat
  candidateId : Nat
  panelId : Nat
  round : String
  technicalSkills : String
  communication : String
  detailedFeedback : String
  decision : String
  nextRound : Option String
  createdAt : Nat
deriving DecidableEq, Repr

/-- `InsertFeedback`: body accepted by `POST /api/feedback` after zod
validation.  `nextRound` is nullable/optional; `none` covers both null and
absent (the code normalises with `?? null`). -/
structure InsertFeedback where
  candidateId : Nat
  panelId : Nat
  round : String
  technicalSkills : String
  communication : String
  detailedFeedback : String
  decision : String
  nextRound : Option String
  createdAt : Nat
deriving DecidableEq, Repr

/-- The candidate/feedback part of `MemStorage`. -/
structure CandState where
  candidates : List (Nat × Candidate)
  candidateCurrentId : Nat
  feedbacks : List (Nat × Feedback)
  feedbackCurrentId : Nat
deriving DecidableEq, Repr

/-- Fresh `MemStorage` state for candidates/feedback (the constructor seeds
no candidates). -/
def initialCandState : CandState :=
  { candidates := [], candidateCurrentId := 1, feedbacks := [], feedbackCurrentId := 1 }

/-- `MemStorage.createCandidate`: assigns the next id and fills defaults
(`status || 'registered'`, `currentRound || 'gd'`, `?? null` for nullable
columns).  JS `||` treats the empty string as absent. -/
def createCandidate (st : CandState) (c : InsertCandidate) : CandState × Candidate :=
  let id := st.candidateCurrentId
  let status := match c.status with
    | some s => if s == "" then "registered" else s
    | none => "registered"
  let currentRound := match c.currentRound with
    | some s => if s == "" then "gd" else s
    | none => "gd"
  let cand : Candidate :=
    { id := id, serialNo := c.serialNo, name := c.name, email := c.email,
      position := c.position, timestamp := c.timestamp, status := status,
      currentRound := currentRound, assignedPanel := c.assignedPanel,
      roomNo := c.roomNo, qrCodeUrl := c.qrCodeUrl }
  ({ st with candidates := mapSet st.candidates id cand,
             candidateCurrentId := id + 1 }, cand)

/-- `{ ...existing, ...updates }` for candidates: shallow merge, absent
fields untouched. -/
def mergeCandidate (c : Candidate) (u : CandidateUpdate) : Candidate :=
  { id := u.id.getD c.id,
    serialNo := u.serialNo.getD c.serialNo,
    name := u.name.getD c.name,
    email := u.email.getD c.email,
    position := u.position.getD c.position,
    timestamp := u.timestamp.getD c.timestamp,
    status := u.status.getD c.status,
    currentRound := u.currentRound.getD c.currentRound,
    assignedPanel := u.assignedPanel.getD c.assignedPanel,
    roomNo := u.roomNo.getD c.roomNo,
    qrCodeUrl := u.qrCodeUrl.getD c.qrCodeUrl }

/-- `MemStorage.updateCandidate`: merge over the existing record, or
`undefined` when the id is unknown. -/
def updateCandidate (st : CandState) (id : Nat) (u : CandidateUpdate) :
    Option (CandState × Candidate) :=
  match mapGet st.candidates id with
  | none => none
  | some existing =>
    let updated := mergeCandidate existing u
    some ({ st with candidates := mapSet st.candidates id updated }, updated)

/-- `MemStorage.createFeedback`: next id, `nextRound ?? null`. -/
def createFeedback (st : CandState) (f : InsertFeedback) : CandState × Feedback :=
  let id := st.feedbackCurrentId
  let fb : Feedback :=
    { id := id, candidateId := f.candidateId, panelId := f.panelId,
      round := f.round, technicalSkills := f.technicalSkills,
      communication := f.communication, detailedFeedback := f.detailedFeedback,
      decision := f.decision, nextRound := f.nextRound, createdAt := f.createdAt }
  ({ st with feedbacks := mapSet st.feedbacks id fb,
             feedbackCurrentId := id + 1 }, fb)

/-- The candidate-mutating step of `POST /api/feedback`: the partial update
the route builds from the decision.  `...(currentRound && { currentRound })`
only spreads the field when the computed value is JS-truthy, so an empty
string `nextRound` is dropped. -/
def feedbackCandidateUpdate (f : InsertFeedback) : CandidateUpdate :=
  let status : String :=
    if f.decision == "next" then "in_queue"
    else if f.decision == "reject" then "rejected"
    else "in_queue"
  let currentRound : Option String :=
    if f.decision == "next" then f.nextRound else none
  let roundTruthy : Bool :=
    match currentRound with
    | some s => s != ""
    | none => false
  { status := some status,
    currentRound := if roundTruthy then currentRound else none,
    assignedPanel := some none }

/-- `POST /api/feedback` after schema validation: create the feedback
record, then (only when the candidate exists) apply the decision transition
via `updateCandidate(candidate.id, ...)`.  Returns the new state, the HTTP
status code, and the created feedback (the response body). -/
def postFeedback (st : CandState) (f : InsertFeedback) : CandState × Nat × Feedback :=
  let (st1, newFeedback) := createFeedback st f
  let st2 :=
    match mapGet st1.candidates f.candidateId with
    | none => st1
    | some cand =>
      match updateCandidate st1 cand.id (feedbackCandidateUpdate f) with
      | none => st1
      | some (st', _) => st'
  (st2, 201, newFeedback)

/-! ### Rooms and panels (MemStorage + the assign/remove routes) -/

/-- Room row.  `assignedPanels` is the integer-array column. -/
structure Room where
  id : Nat
  roomNumber : String
  capacity : Nat
  floor : String
  type : String
  isOccupied : Bool
  assignedPanels : List Nat
deriving DecidableEq, Repr

/-- Panel row. -/
structure Panel where
  id : Nat
  name : String
  roomNo : String
  isActive : Bool
  currentCandidate : Option Nat
  panelMembers : List String
deriving DecidableEq, Repr

/-- `Partial<Room>` for `updateRoom` (PATCH /api/rooms/:id). -/
structure RoomUpdate where
  id : Option Nat := none
  roomNumber : Option String := none
  capacity : Option Nat := none
  floor : Option String := none
  type : Option String := none
  isOccupied : Option Bool := none
  assignedPanels : Option (List Nat) := none
deriving DecidableEq, Repr

/-- `Partial<Panel>` for `updatePanel` (PATCH /api/panels/:id). -/
structure PanelUpdate where
  id : Option Nat := none
  name : Option String := none
  roomNo : Option String := none
  isActive : Option Bool := none
  currentCandidate : Option (Option Nat) := none
  panelMembers : Option (List String) := none
deriving DecidableEq, Repr

/-- The rooms/panels part of `MemStorage`. -/
structure RPState where
  rooms : List (Nat × Room)
  panels : List (Nat × Panel)
deriving DecidableEq, Repr

/-- `{ ...existing, ...updates }` for panels. -/
def mergePanel (p : Panel) (u : PanelUpdate) : Panel :=
  { id := u.id.getD p.id,
    name := u.name.getD p.name,
    roomNo := u.roomNo.getD p.roomNo,
    isActive := u.isActive.getD p.isActive,
    currentCandidate := u.currentCandidate.getD p.currentCandidate,
    panelMembers := u.panelMembers.getD p.panelMembers }

/-- `MemStorage.updatePanel`: shallow merge over the existing record, or
`undefined` when the id is unknown. -/
def updatePanel (st : RPState) (id : Nat) (u : PanelUpdate) : Option (RPState × Panel) :=
  match mapGet st.panels id with
  | none => none
  | some existing =>
    let updated := mergePanel existing u
    some ({ st with panels := mapSet st.panels id updated }, updated)

/-- `{ ...existing, ...updates }` for rooms. -/
def mergeRoom (r : Room) (u : RoomUpdate) : Room :=
  { id := u.id.getD r.id,
    roomNumber := u.roomNumber.getD r.roomNumber,
    capacity := u.capacity.getD r.capacity,
    floor := u.floor.getD r.floor,
    type := u.type.getD r.type,
    isOccupied := u.isOccupied.getD r.isOccupied,
    assignedPanels := u.assignedPanels.getD r.assignedPanels }

/-- `MemStorage.updateRoom`: shallow merge of any caller-supplied partial —
no consistency check between `isOccupied` and `assignedPanels`. -/
def updateRoom (st : RPState) (id : Nat) (u : RoomUpdate) : Option (RPState × Room) :=
  match mapGet st.rooms id with
  | none => none
  | some existing =>
    let updated := mergeRoom existing u
    some ({ st with rooms := mapSet st.rooms id updated }, updated)

/-- `MemStorage.updatePanel(panelId, { roomNo })` as called by the room
routes: set the panel's `roomNo` when the panel exists, otherwise no-op
(the callers ignore the `undefined` result). -/
def setPanelRoomNo (panels : List (Nat × Panel)) (panelId : Nat) (rn : String) :
    List (Nat × Panel) :=
  match mapGet panels panelId with
  | none => panels
  | some p => mapSet panels panelId { p with roomNo := rn }

/-- `MemStorage.assignPanelToRoom`: `undefined` when room or panel is
missing; early return when the panel is already in the room's list;
otherwise append the panel id, force `isOccupied := true` and copy the
room number onto the panel. -/
def assignPanelToRoom (st : RPState) (roomId panelId : Nat) :
    Option (RPState × Room) :=
  match mapGet st.rooms roomId with
  | none => none
  | some room =>
    match mapGet st.panels panelId with
    | none => none
    | some _ =>
      let current := room.assignedPanels
      if current.contains panelId then
        some (st, room)
      else
        let updatedPanels := current ++ [panelId]
        let updated := { room with assignedPanels := updatedPanels, isOccupied := true }
        let st1 : RPState := { st with rooms := mapSet st.rooms roomId updated }
        some ({ st1 with panels := setPanelRoomNo st1.panels panelId room.roomNumber },
              updated)

/-- `MemStorage.removePanelFromRoom`: `undefined` when the room is missing;
early return when the panel is not in the list; otherwise filter it out,
recompute `isOccupied` from the remaining list, and clear the panel's
`roomNo` when it still points at this room. -/
def removePanelFromRoom (st : RPState) (roomId panelId : Nat) :
    Option (RPState × Room) :=
  match mapGet st.rooms roomId with
  | none => none
  | some room =>
    let current := room.assignedPanels
    if current.contains panelId then
      let updatedPanels := current.filter (fun i => i != panelId)
      let updated := { room with assignedPanels := updatedPanels,
                                 isOccupied := decide (updatedPanels.length > 0) }
      let st1 : RPState := { st with rooms := mapSet st.rooms roomId updated }
      let st2 : RPState :=
        match mapGet st1.panels panelId with
        | some p =>
          if p.roomNo == room.roomNumber then
            { st1 with panels := setPanelRoomNo st1.panels panelId "" }
          else st1
        | none => st1
      some (st2, updated)
    else
      some (st, room)

/-- `POST /api/rooms/:roomId/assign-panel/:panelId`: (1) detach the panel
from every *other* room currently listing it, (2) stamp the target room's
number onto the panel when both exist, (3) delegate to
`assignPanelToRoom`; a `none` response is the 404 case.  Steps (1) and (2)
run *before* the existence check of step (3). -/
def routeAssignPanel (st : RPState) (roomId panelId : Nat) :
    RPState × Option Room :=
  let others := (mapValues st.rooms).filter
    (fun r => r.assignedPanels.contains panelId && r.id != roomId)
  let st1 := others.foldl
    (fun acc r =>
      match removePanelFromRoom acc r.id panelId with
      | some (st', _) => st'
      | none => acc) st
  let st2 :=
    match mapGet st1.panels panelId with
    | some _ =>
      match mapGet st1.rooms roomId with
      | some room => { st1 with panels := setPanelRoomNo st1.panels panelId room.roomNumber }
      | none => st1
    | none => st1
  match assignPanelToRoom st2 roomId panelId with
  | none => (st2, none)
  | some (st3, updated) => (st3, some updated)

/-- The occupancy half of the spec's room invariant:
`occupied == (assigned panel list non-empty)` for every stored room. -/
def OccInv (st : RPState) : Prop :=
  ∀ e ∈ st.rooms, (e.2).isOccupied = !(e.2).assignedPanels.isEmpty

/-! ### Users and role permissions (MemStorage + user routes) -/

/-- User row; passwords are stored in plaintext.  `createdAt` is the epoch
timestamp of `new Date()` at creation. -/
structure User where
  id : Nat
  username : String
  password : String
  role : String
  name : String
  email : String
  permissions : List String
  isActive : Bool
  createdAt : Nat
deriving DecidableEq, Repr

/-- `InsertUser` as accepted by `createUser`. -/
structure InsertUser where
  username : String
  password : String
  role : Option String
  name : String
  email : String
  permissions : Option (List String)
  isActive : Option Bool
deriving DecidableEq, Repr

/-- RolePermission row; `permissions` is the serialized JSON string. -/
structure RolePermission where
  id : Nat
  role : String
  permissions : String
  description : Option String
  createdAt : Nat
  updatedAt : Nat
deriving DecidableEq, Repr

/-- `InsertRolePermission`. -/
structure InsertRolePermission where
  role : String
  permissions : String
  description : Option String
deriving DecidableEq, Repr

/-- `Partial<RolePermission>` for `updateRolePermission`. -/
structure RolePermissionUpdate where
  id : Option Nat := none
  role : Option String := none
  permissions : Option String := none
  description : Option (Option String) := none
  createdAt : Option Nat := none
  updatedAt : Option Nat := none
deriving DecidableEq, Repr

/-- The users/role-permissions part of `MemStorage`. -/
structure AdminState where
  users : List (Nat × User)
  userCurrentId : Nat
  rolePermissions : List (Nat × RolePermission)
  rolePermissionCurrentId : Nat
deriving DecidableEq, Repr

/-- `MemStorage.createUser`: next id, `role || 'panel'` (JS `||`, so the
empty string also defaults), `permissions || []`, `isActive ?? true`,
`createdAt = new Date()` (passed in as `now`). -/
def createUser (st : AdminState) (u : InsertUser) (now : Nat) : AdminState × User :=
  let id := st.userCurrentId
  let role := match u.role with
    | some r => if r == "" then "panel" else r
    | none => "panel"
  let user : User :=
    { id := id, username := u.username, password := u.password, role := role,
      name := u.name, email := u.email,
      permissions := u.permissions.getD [],
      isActive := u.isActive.getD true, createdAt := now }
  ({ st with users := mapSet st.users id user, userCurrentId := id + 1 }, user)

/-- `MemStorage.deleteUser`: `Map.delete`; the id counter is untouched. -/
def deleteUser (st : AdminState) (id : Nat) : AdminState × Bool :=
  let (m, ok) := mapDelete st.users id
  ({ st with users := m }, ok)

/-- `{ ...existing, ...updates }` for users. -/
structure UserUpdate where
  id : Option Nat := none
  username : Option String := none
  password : Option String := none
  role : Option String := none
  name : Option String := none
  email : Option String := none
  permissions : Option (List String) := none
  isActive : Option Bool := none
  createdAt : Option Nat := none
deriving DecidableEq, Repr

def mergeUser (c : User) (u : UserUpdate) : User :=
  { id := u.id.getD c.id,
    username := u.username.getD c.username,
    password := u.password.getD c.password,
    role := u.role.getD c.role,
    name := u.name.getD c.name,
    email := u.email.getD c.email,
    permissions := u.permissions.getD c.permissions,
    isActive := u.isActive.getD c.isActive,
    createdAt := u.createdAt.getD c.createdAt }

/-- `MemStorage.updateUser`. -/
def updateUser (st : AdminState) (id : Nat) (u : UserUpdate) :
    Option (AdminState × User) :=
  match mapGet st.users id with
  | none => none
  | some existing =>
    let updated := mergeUser existing u
    some ({ st with users := mapSet st.users id updated }, updated)

/-- `MemStorage.createRolePermission`: next id, `description ?? null`,
both timestamps set to `now`. -/
def createRolePermission (st : AdminState) (rp : InsertRolePermission) (now : Nat) :
    AdminState × RolePermission :=
  let id := st.rolePermissionCurrentId
  let rec0 : RolePermission :=
    { id := id, role := rp.role, permissions := rp.permissions,
      description := rp.description, createdAt := now, updatedAt := now }
  ({ st with rolePermissions := mapSet st.rolePermissions id rec0,
             rolePermissionCurrentId := id + 1 }, rec0)

/-- `MemStorage.deleteRolePermission`. -/
def deleteRolePermission (st : AdminState) (id : Nat) : AdminState × Bool :=
  let (m, ok) := mapDelete st.rolePermissions id
  ({ st with rolePermissions := m }, ok)

/-- `{ ...existing, ...updates, updatedAt: new Date() }` — the merge always
overwrites `updatedAt` with the current clock. -/
def mergeRolePermission (r : RolePermission) (u : RolePermissionUpdate) (now : Nat) :
    RolePermission :=
  { id := u.id.getD r.id,
    role := u.role.getD r.role,
    permissions := u.permissions.getD r.permissions,
    description := u.description.getD r.description,
    createdAt := u.createdAt.getD r.createdAt,
    updatedAt := now }

/-- `MemStorage.updateRolePermission`. -/
def updateRolePermission (st : AdminState) (id : Nat) (u : RolePermissionUpdate)
    (now : Nat) : Option (AdminState × RolePermission) :=
  match mapGet st.rolePermissions id with
  | none => none
  | some existing =>
    let updated := mergeRolePermission existing u now
    some ({ st with rolePermissions := mapSet st.rolePermissions id updated }, updated)

/-! #### The remaining entity kinds and their create methods -/

/-- `InsertPanel`. -/
structure InsertPanel where
  name : String
  roomNo : String
  isActive : Option Bool
  currentCandidate : Option Nat
  panelMembers : List String
deriving DecidableEq, Repr

/-- `InsertRoom`. -/
structure InsertRoom where
  roomNumber : String
  capacity : Nat
  floor : String
  type : String
  isOccupied : Option Bool
  assignedPanels : Option (List Nat)
deriving DecidableEq, Repr

/-- CandidateFeedback row (candidate → process). -/
structure CandidateFeedback where
  id : Nat
  candidateId : Nat
  overallExperience : Nat
  interviewDifficulty : Nat
  interviewFairness : Nat
  interviewerProfessionalism : Nat
  reasonsRating : Option String
  improvementSuggestions : Option String
  comparisonToOthers : Option String
  additionalComments : Option String
  submittedAt : Nat
  anonymous : Bool
deriving DecidableEq, Repr

/-- `InsertCandidateFeedback`. -/
structure InsertCandidateFeedback where
  candidateId : Nat
  overallExperience : Nat
  interviewDifficulty : Nat
  interviewFairness : Nat
  interviewerProfessionalism : Nat
  reasonsRating : Option String
  improvementSuggestions : Option String
  comparisonToOthers : Option String
  additionalComments : Option String
  anonymous : Option Bool
deriving DecidableEq, Repr

/-- All seven entity maps and id counters of `MemStorage`, combined
(`users`/`rolePermissions` via `AdminState`, `candidates`/`feedbacks` via
`CandState`, the remaining three inline). -/
structure MemState where
  admin : AdminState
  cand : CandState
  panels : List (Nat × Panel)
  panelCurrentId : Nat
  rooms : List (Nat × Room)
  roomCurrentId : Nat
  candidateFeedbacks : List (Nat × CandidateFeedback)
  candidateFeedbackCurrentId : Nat
deriving DecidableEq, Repr

/-- `MemStorage.createPanel`: next id, `isActive ?? true`,
`currentCandidate ?? null`. -/
def createPanel (st : MemState) (p : InsertPanel) : MemState × Panel :=
  let id := st.panelCurrentId
  let panel : Panel :=
    { id := id, name := p.name, roomNo := p.roomNo,
      isActive := p.isActive.getD true,
      currentCandidate := p.currentCandidate,
      panelMembers := p.panelMembers }
  ({ st with panels := mapSet st.panels id panel, panelCurrentId := id + 1 }, panel)

/-- `MemStorage.createRoom`: next id, `isOccupied ?? false`,
`assignedPanels ?? []`. -/
def createRoom (st : MemState) (r : InsertRoom) : MemState × Room :=
  let id := st.roomCurrentId
  let room : Room :=
    { id := id, roomNumber := r.roomNumber, capacity := r.capacity,
      floor := r.floor, type := r.type,
      isOccupied := r.isOccupied.getD false,
      assignedPanels := r.assignedPanels.getD [] }
  ({ st with rooms := mapSet st.rooms id room, roomCurrentId := id + 1 }, room)

/-- `MemStorage.createCandidateFeedback`: next id, `?? null` for the
optional text fields, `submittedAt = new Date()` (passed as `now`),
`anonymous ?? false`. -/
def createCandidateFeedback (st : MemState) (cf : InsertCandidateFeedback)
    (now : Nat) : MemState × CandidateFeedback :=
  let id := st.candidateFeedbackCurrentId
  let rec0 : CandidateFeedback :=
    { id := id, candidateId := cf.candidateId,
      overallExperience := cf.overallExperience,
      interviewDifficulty := cf.interviewDifficulty,
      interviewFairness := cf.interviewFairness,
      interviewerProfessionalism := cf.interviewerProfessionalism,
      reasonsRating := cf.reasonsRating,
      improvementSuggestions := cf.improvementSuggestions,
      comparisonToOthers := cf.comparisonToOthers,
      additionalComments := cf.additionalComments,
      submittedAt := now, anonymous := cf.anonymous.getD false }
  ({ st with candidateFeedbacks := mapSet st.candidateFeedbacks id rec0,
             candidateFeedbackCurrentId := id + 1 }, rec0)

/-! #### Create/delete operation sequences (for the id-monotonicity claim) -/

/-- The seven entity kinds of the store. -/
inductive EntityKind where
  | user
  | candidate
  | panel
  | feedback
  | room
  | candidateFeedback
  | rolePermission
deriving DecidableEq, Repr

/-- A create call on any kind, or a delete on one of the two deletable
kinds (User and RolePermission are the only kinds with delete methods). -/
inductive StoreOp where
  | createUserOp (u : InsertUser) (now : Nat)
  | deleteUserOp (id : Nat)
  | createCandidateOp (c : InsertCandidate)
  | createPanelOp (p : InsertPanel)
  | createFeedbackOp (f : InsertFeedback)
  | createRoomOp (r : InsertRoom)
  | createCandidateFeedbackOp (cf : InsertCandidateFeedback) (now : Nat)
  | createRolePermissionOp (rp : InsertRolePermission) (now : Nat)
  | deleteRolePermissionOp (id : Nat)
deriving DecidableEq, Repr

/-- One store call; a create also reports `(kind, returned id)`. -/
def stepStoreOp (st : MemState) : StoreOp → MemState × Option (EntityKind × Nat)
  | .createUserOp u now =>
    let (a, rec0) := createUser st.admin u now
    ({ st with admin := a }, some (.user, rec0.id))
  | .deleteUserOp id => ({ st with admin := (deleteUser st.admin id).1 }, none)
  | .createCandidateOp c =>
    let (cs, rec0) := createCandidate st.cand c
    ({ st with cand := cs }, some (.candidate, rec0.id))
  | .createPanelOp p =>
    let (st', rec0) := createPanel st p
    (st', some (.panel, rec0.id))
  | .createFeedbackOp f =>
    let (cs, rec0) := createFeedback st.cand f
    ({ st with cand := cs }, some (.feedback, rec0.id))
  | .createRoomOp r =>
    let (st', rec0) := createRoom st r
    (st', some (.room, rec0.id))
  | .createCandidateFeedbackOp cf now =>
    let (st', rec0) := createCandidateFeedback st cf now
    (st', some (.candidateFeedback, rec0.id))
  | .createRolePermissionOp rp now =>
    let (a, rec0) := createRolePermission st.admin rp now
    ({ st with admin := a }, some (.rolePermission, rec0.id))
  | .deleteRolePermissionOp id =>
    ({ st with admin := (deleteRolePermission st.admin id).1 }, none)

/-- Run a sequence of create/delete calls, collecting `(kind, id)` for
every identifier returned by a create. -/
def runStoreOps : MemState → List StoreOp → MemState × List (EntityKind × Nat)
  | st, [] => (st, [])
  | st, op :: ops =>
    let (st1, created?) := stepStoreOp st op
    let (st2, rest) := runStoreOps st1 ops
    (st2, match created? with
          | some e => e :: rest
          | none => rest)

/-- The ids returned for one entity kind, in call order. -/
def idsForKind (k : EntityKind) (trace : List (EntityKind × Nat)) : List Nat :=
  (trace.filter (fun e => e.1 == k)).map (fun e => e.2)

/-- The id counter a kind draws from. -/
def counterFor (k : EntityKind) (st : MemState) : Nat :=
  match k with
  | .user => st.admin.userCurrentId
  | .candidate => st.cand.candidateCurrentId
  | .panel => st.panelCurrentId
  | .feedback => st.cand.feedbackCurrentId
  | .room => st.roomCurrentId
  | .candidateFeedback => st.candidateFeedbackCurrentId
  | .rolePermission => st.admin.rolePermissionCurrentId

/-! #### Password-free responses (the user routes build their JSON bodies
by destructuring the password out of the stored record) -/

/-- A JSON value, enough to express the user-route response bodies. -/
inductive JVal where
  | jNull : JVal
  | jBool : Bool → JVal
  | jNum : Nat → JVal
  | jStr : String → JVal
  | jArr : List JVal → JVal
  | jObj : List (String × JVal) → JVal
deriving Repr

/-- Top-level keys of a JSON object (empty for non-objects). -/
def jKeys : JVal → List String
  | .jObj fields => fields.map (fun f => f.1)
  | _ => []

/-- The stored user record serialized with *all* its fields, password
included — what the entity store holds. -/
def userToJson (u : User) : JVal :=
  .jObj [("id", .jNum u.id), ("username", .jStr u.username),
         ("password", .jStr u.password), ("role", .jStr u.role),
         ("name", .jStr u.name), ("email", .jStr u.email),
         ("permissions", .jArr (u.permissions.map JVal.jStr)),
         ("isActive", .jBool u.isActive), ("createdAt", .jNum u.createdAt)]

/-- `const { password, ...safeUser } = user`: the record minus the
`password` key, as returned by the user CRUD routes. -/
def safeUserJson (u : User) : JVal :=
  match userToJson u with
  | .jObj fields => .jObj (fields.filter (fun f => f.1 != "password"))
  | v => v

/-- `POST /api/auth/login`: 400 without credentials, 401 unless a user with
that username exists and the plaintext passwords match, else the explicit
five-field profile. -/
def loginResponse (st : AdminState) (username password : String) : Option JVal :=
  if username == "" || password == "" then none
  else
    match (mapValues st.users).find? (fun u => u.username == username) with
    | none => none
    | some user =>
      if user.password != password then none
      else some (.jObj [("id", .jNum user.id), ("username", .jStr user.username),
                        ("name", .jStr user.name), ("email", .jStr user.email),
                        ("role", .jStr user.role)])

/-- `GET /api/users`: every stored user, password stripped. -/
def getUsersResponse (st : AdminState) : JVal :=
  .jArr ((mapValues st.users).map safeUserJson)

/-- `GET /api/users/:id`. -/
def getUserResponse (st : AdminState) (id : Nat) : Option JVal :=
  (mapGet st.users id).map safeUserJson

/-- `POST /api/users` (after schema validation): create, then respond with
the password-stripped record. -/
def postUserResponse (st : AdminState) (u : InsertUser) (now : Nat) :
    AdminState × JVal :=
  let (st', user) := createUser st u now
  (st', safeUserJson user)

/-- `PATCH /api/users/:id`: merge, then respond password-stripped (404 as
`none`). -/
def patchUserResponse (st : AdminState) (id : Nat) (u : UserUpdate) :
    Option (AdminState × JVal) :=
  (updateUser st id u).map (fun r => (r.1, safeUserJson r.2))

/-! ### Queue position (client/src/pages/PanelPage.tsx) -/

/-- The round/status filter: same `currentRound` as the viewed candidate
and status in `["registered", "in_queue"]`. -/
def queueFilter (cand : Candidate) (allCandidates : List Candidate) : List Candidate :=
  allCandidates.filter (fun c =>
    c.currentRound == cand.currentRound &&
      (c.status == "registered" || c.status == "in_queue"))

/-- Ascending-timestamp comparison used by the `sort` callback. -/
def tsLe (a b : Candidate) : Prop := a.timestamp ≤ b.timestamp

/-- One step of a stable insertion sort by timestamp: the element being
inserted precedes every later element with an equal timestamp, which is
exactly the ES2019+ stable `Array.prototype.sort` guarantee for the
comparator `(a, b) => ta - tb`. -/
def insertByTs (c : Candidate) : List Candidate → List Candidate
  | [] => [c]
  | d :: ds => if c.timestamp ≤ d.timestamp then c :: d :: ds else d :: insertByTs c ds

/-- Stable sort of the filtered candidates by registration timestamp. -/
def sortByTs (l : List Candidate) : List Candidate :=
  l.foldr insertByTs []

/-- JS `Array.prototype.findIndex`, with `none` for `-1`. -/
def findIndexP {α : Type} (p : α → Bool) : List α → Option Nat
  | [] => none
  | d :: ds => if p d then some 0 else (findIndexP p ds).map (fun i => i + 1)

/-- The sorted same-round queue the page computes. -/
def sortedQueue (cand : Candidate) (allCandidates : List Candidate) : List Candidate :=
  sortByTs (queueFilter cand allCandidates)

/-- `queuePosition`: 1-based index of the first entry whose *email* matches
the viewed candidate, `0` when absent. -/
def queuePosition (cand : Candidate) (allCandidates : List Candidate) : Nat :=
  match findIndexP (fun c => c.email == cand.email) (sortedQueue cand allCandidates) with
  | some i => i + 1
  | none => 0

/-- `candidatesAhead`: the entries strictly before that index
(`filter((_, index) => index < position)` over the sorted list, where
`position` is the raw `findIndex` result). -/
def candidatesAhead (cand : Candidate) (allCandidates : List Candidate) : List Candidate :=
  match findIndexP (fun c => c.email == cand.email) (sortedQueue cand allCandidates) with
  | some i => (sortedQueue cand allCandidates).take i
  | none => []

/-! ### Serial-number generation (webhook / manual registration routes) -/

/-- Little-endian decimal digits with explicit fuel (`fuel ≥ n` suffices);
mirrors JS `Number.prototype.toString` digit extraction. -/
def decDigitsAux : Nat → Nat → List Nat
  | 0, _ => []
  | _ + 1, 0 => []
  | fuel + 1, n + 1 => (n + 1) % 10 :: decDigitsAux fuel ((n + 1) / 10)

/-- The decimal digit character `'0'..'9'`. -/
def digitChar (d : Nat) : Char := Char.ofNat (48 + d)

/-- Value of a little-endian digit list; inverse of `decDigitsAux`, used to
show serial numbers are injective in the count. -/
def digitsVal : List Nat → Nat
  | [] => 0
  | d :: ds => d + 10 * digitsVal ds

/-- JS `(n).toString()` for a non-negative number. -/
def jsToString (n : Nat) : String :=
  if n = 0 then "0"
  else String.mk (((decDigitsAux n n).reverse).map digitChar)

/-- JS `String.prototype.padStart(3, '0')`: prefix `'0'`s up to length 3
(identity when already long enough, since `3 - length = 0`). -/
def padStart3 (s : String) : String :=
  String.mk (List.replicate (3 - s.data.length) '0' ++ s.data)

/-- The serial the two registration routes generate from the current
candidate count: `` `WD-${(count + 1).toString().padStart(3, '0')}` ``. -/
def serialFor (count : Nat) : String :=
  "WD-" ++ padStart3 (jsToString (count + 1))

/-- The QR-code URL template applied to a serial number. -/
def qrUrlFor (serialNo : String) : String :=
  "https://api.qrserver.com/v1/create-qr-code/?data=" ++ serialNo ++ "&size=150x150"

/-- The common body of `POST /api/google-sheets/webhook` and
`POST /api/candidates/manual`: generate serial + QR url from the current
count, then `createCandidate` with status `registered` and round `gd`.
`ts` is the registration timestamp (the webhook's form timestamp, or
`new Date()` for the manual route). -/
def registerCandidate (st : CandState) (name email position : String) (ts : Nat) :
    CandState × Candidate :=
  let serialNo := serialFor (mapValues st.candidates).length
  let qrCodeUrl := qrUrlFor serialNo
  createCandidate st
    { serialNo := serialNo, name := name, email := email, position := position,
      timestamp := ts, status := some "registered", currentRound := some "gd",
      assignedPanel := none, roomNo := none, qrCodeUrl := some qrCodeUrl }

/-- A registration request hitting one of the two serial-generating
endpoints. -/
inductive RegOp where
  | webhook (name email position : String) (ts : Nat)
  | manual (name email position : String) (now : Nat)
deriving DecidableEq, Repr

/-- Run a sequence of webhook/manual registrations, collecting the created
candidates in order. -/
def runRegOps : CandState → List RegOp → CandState × List Candidate
  | st, [] => (st, [])
  | st, op :: ops =>
    let (st1, cand) :=
      match op with
      | .webhook n e p ts => registerCandidate st n e p ts
      | .manual n e p now => registerCandidate st n e p now
    let (st2, rest) := runRegOps st1 ops
    (st2, cand :: rest)

/-! ### Concrete fixtures used by witnesses and counterexamples -/

/-- A registered candidate waiting in the `gd` round. -/
def candGd : Candidate :=
  { id := 1, serialNo := "WD-001", name := "Asha", email := "asha@example.com",
    position := "SDE", timestamp := 100, status := "registered",
    currentRound := "gd", assignedPanel := some 1, roomNo := none, qrCodeUrl := none }

/-- A second registered candidate, earlier timestamp. -/
def candEarly : Candidate :=
  { candGd with id := 2, serialNo := "WD-002", email := "bela@example.com",
                timestamp := 50, assignedPanel := none }

/-- A third registered candidate whose timestamp ties with `candGd`. -/
def candTie : Candidate :=
  { candGd with id := 3, serialNo := "WD-003", email := "chand@example.com",
                assignedPanel := none }

/-- Candidate store holding just `candGd`. -/
def cstFix : CandState :=
  { candidates := [(1, candGd)], candidateCurrentId := 2,
    feedbacks := [], feedbackCurrentId := 1 }

/-- Feedback: decision `next`, `nextRound` present but the empty string. -/
def fbEmptyNext : InsertFeedback :=
  { candidateId := 1, panelId := 1, round := "gd", technicalSkills := "good",
    communication := "good", detailedFeedback := "ok", decision := "next",
    nextRound := some "", createdAt := 0 }

/-- Feedback: decision `next`, `nextRound = "screening"`. -/
def fbScreening : InsertFeedback :=
  { fbEmptyNext with nextRound := some "screening" }

/-- Feedback aimed at a candidate id that is not in the store. -/
def fbOrphan : InsertFeedback :=
  { fbEmptyNext with candidateId := 99, nextRound := some "screening" }

/-- Room 101 with panel 1 assigned. -/
def roomFix : Room :=
  { id := 1, roomNumber := "101", capacity := 5, floor := "1st",
    type := "Technical", isOccupied := true, assignedPanels := [1] }

/-- Panel 1, sitting in room 101. -/
def panelFix : Panel :=
  { id := 1, name := "Panel 1", roomNo := "101", isActive := true,
    currentCandidate := none, panelMembers := ["Panel User"] }

/-- Rooms/panels state: room 101 holds panel 1. -/
def rpFix : RPState := { rooms := [(1, roomFix)], panels := [(1, panelFix)] }

/-- A second, empty room. -/
def roomB2 : Room :=
  { id := 2, roomNumber := "102", capacity := 3, floor := "1st", type := "HR",
    isOccupied := false, assignedPanels := [] }

/-- Rooms/panels state: panel 1 sits in room 1; room 2 is free. -/
def rpMove : RPState :=
  { rooms := [(1, roomFix), (2, roomB2)], panels := [(1, panelFix)] }

/-- Garbage-but-reachable state (via PATCH /api/rooms/:id): panel 7 sits in
both rooms' lists while room 2's occupied flag is false. -/
def rpStale : RPState :=
  { rooms := [(1, { roomFix with assignedPanels := [7] }),
              (2, { id := 2, roomNumber := "102", capacity := 3, floor := "1st",
                    type := "HR", isOccupied := false, assignedPanels := [7] })],
    panels := [(7, { panelFix with id := 7 })] }

/-- Rooms/panels state with an empty, unoccupied room and a free panel. -/
def rpFree : RPState :=
  { rooms := [(1, { roomFix with isOccupied := false, assignedPanels := [] })],
    panels := [(1, panelFix)] }

/-- A PATCH body setting only `isOccupied`. -/
def occTrueUpd : RoomUpdate := { isOccupied := some true }

/-- The store after `PATCH /api/rooms/1 { isOccupied: true }` on `rpFree`:
the room claims to be occupied while its panel list is empty. -/
def rpBroken : RPState :=
  { rooms := [(1, { roomFix with isOccupied := true, assignedPanels := [] })],
    panels := [(1, panelFix)] }

/-- A seeded admin user. -/
def userFix : User :=
  { id := 1, username := "admin", password := "admin123", role := "admin",
    name := "Admin User", email := "admin@example.com", permissions := [],
    isActive := true, createdAt := 0 }

/-- A seeded role-permission row. -/
def rpPermFix : RolePermission :=
  { id := 1, role := "admin", permissions := "\x7b\x7d", description := none,
    createdAt := 0, updatedAt := 0 }

/-- `rpPermFix` after a no-op update at clock 5: only `updatedAt` moved. -/
def rpPermFix5 : RolePermission := { rpPermFix with updatedAt := 5 }

/-- An admin store holding one user and one role permission. -/
def adminFix : AdminState :=
  { users := [(1, userFix)], userCurrentId := 2,
    rolePermissions := [(1, rpPermFix)], rolePermissionCurrentId := 2 }

/-- `adminFix` after the no-op role-permission update at clock 5. -/
def adminFix5 : AdminState :=
  { adminFix with rolePermissions := [(1, rpPermFix5)] }

/-- Two registration requests hitting the serial-generating endpoints. -/
def regOpsFix : List RegOp :=
  [.manual "Asha" "asha@example.com" "SDE" 100,
   .webhook "Bela" "bela@example.com" "QA" 200]

/-- The candidate created by the second request of `regOpsFix`. -/
def candReg1 : Candidate :=
  { id := 2, serialNo := "WD-002", name := "Bela", email := "bela@example.com",
    position := "QA", timestamp := 200, status := "registered",
    currentRound := "gd", assignedPanel := none, roomNo := none,
    qrCodeUrl := some "https://api.qrserver.com/v1/create-qr-code/?data=WD-002&size=150x150" }

/-- An insert body for a new panel user. -/
def iuFix : InsertUser :=
  { username := "panel1", password := "panel123", role := some "panel",
    name := "Panel User", email := "panel@example.com",
    permissions := some [], isActive := some true }

end Portal

/-! ## Theorems -/

namespace Portal

/-! ### Association-list map lemmas -/

theorem mapGet_replace_self {α : Type} (m : List (Nat × α)) (k : Nat) (v : α)
    (h : m.any (fun e => e.1 == k) = true) :
    mapGet (m.map (fun e => if e.1 == k then (k, v) else e)) k = some v := by
  induction m with
  | nil => simp at h
  | cons e t ih =>
    by_cases he : e.1 = k
    · simp [mapGet, List.find?, he]
    · have he' : (e.1 == k) = false := by simpa using he
      have h' : t.any (fun e => e.1 == k) = true := by
        simpa [List.any_cons, he'] using h
      simpa [mapGet, List.find?, he'] using ih h'

theorem mapGet_append_absent {α : Type} (m : List (Nat × α)) (k : Nat) (v : α)
    (h : m.any (fun e => e.1 == k) = false) :
    mapGet (m ++ [(k, v)]) k = some v := by
  induction m with
  | nil => simp [mapGet, List.find?]
  | cons e t ih =>
    have he : (e.1 == k) = false := by
      by_contra hc
      have : (e.1 == k) = true := by simpa using hc
      simp [List.any_cons, this] at h
    have h' : t.any (fun e => e.1 == k) = false := by
      simpa [List.any_cons, he] using h
    simpa [mapGet, List.find?, he] using ih h'

/-- `Map.set` then `Map.get` at the same key yields the new value. -/
theorem mapGet_mapSet_self {α : Type} (m : List (Nat × α)) (k : Nat) (v : α) :
    mapGet (mapSet m k v) k = some v := by
  unfold mapSet
  by_cases h : m.any (fun e => e.1 == k) = true
  · rw [if_pos h]; exact mapGet_replace_self m k v h
  · have h' : m.any (fun e => e.1 == k) = false := Bool.eq_false_iff.mpr h
    rw [if_neg h]; exact mapGet_append_absent m k v h'

theorem mapGet_replace_ne {α : Type} (m : List (Nat × α)) (k k' : Nat) (v : α)
    (h : k' ≠ k) :
    mapGet (m.map (fun e => if e.1 == k then (k, v) else e)) k' = mapGet m k' := by
  induction m with
  | nil => rfl
  | cons e t ih =>
    by_cases he : e.1 = k
    · have hk' : ((k : Nat) == k') = false := by simp [Ne.symm h]
      have he1 : (e.1 == k') = false := by simp [he, Ne.symm h]
      simp only [List.map_cons, mapGet, List.find?, he, if_pos, beq_self_eq_true, hk', he1]
      simpa [mapGet, he] using ih
    · have he' : (e.1 == k) = false := by simpa using he
      by_cases he2 : e.1 = k'
      · have he2' : (e.1 == k') = true := by simpa using he2
        simp [mapGet, List.find?, he', he2']
      · have he2' : (e.1 == k') = false := by simpa using he2
        simp only [List.map_cons, mapGet, List.find?, he', if_neg, Bool.false_eq_true,
          not_false_eq_true, he2']
        simpa [mapGet, he'] using ih

theorem mapGet_append_single_ne {α : Type} (m : List (Nat × α)) (k k' : Nat) (v : α)
    (h : k' ≠ k) : mapGet (m ++ [(k, v)]) k' = mapGet m k' := by
  induction m with
  | nil =>
    have hk' : ((k : Nat) == k') = false := by simp [Ne.symm h]
    simp [mapGet, List.find?, hk']
  | cons e t ih =>
    by_cases he2 : e.1 = k'
    · have he2' : (e.1 == k') = true := by simpa using he2
      simp [mapGet, List.find?, he2']
    · have he2' : (e.1 == k') = false := by simpa using he2
      simp only [List.cons_append, mapGet, List.find?, he2']
      simpa [mapGet] using ih

/-- `Map.set` does not disturb other keys. -/
theorem mapGet_mapSet_ne {α : Type} (m : List (Nat × α)) (k k' : Nat) (v : α)
    (h : k' ≠ k) : mapGet (mapSet m k v) k' = mapGet m k' := by
  unfold mapSet
  by_cases hany : m.any (fun e => e.1 == k) = true
  · rw [if_pos hany]; exact mapGet_replace_ne m k k' v h
  · rw [if_neg hany]; exact mapGet_append_single_ne m k k' v h

/-- Every entry of `mapSet m k v` is the new pair or an old entry. -/
theorem mem_mapSet {α : Type} {m : List (Nat × α)} {k : Nat} {v : α} {e : Nat × α}
    (h : e ∈ mapSet m k v) : e = (k, v) ∨ e ∈ m := by
  unfold mapSet at h
  by_cases hany : m.any (fun x => x.1 == k) = true
  · rw [if_pos hany] at h
    rcases List.mem_map.mp h with ⟨x, hx, hfx⟩
    by_cases hxk : x.1 = k
    · left
      have : (x.1 == k) = true := by simpa using hxk
      rw [this] at hfx
      simp at hfx
      exact hfx.symm
    · right
      have hxk' : (x.1 == k) = false := by simpa using hxk
      rw [hxk'] at hfx
      simp at hfx
      rwa [← hfx]
  · rw [if_neg hany] at h
    rcases List.mem_append.mp h with h1 | h1
    · right; exact h1
    · left; simpa using h1

/-- A successful `Map.get` exhibits a stored entry. -/
theorem mapGet_mem {α : Type} {m : List (Nat × α)} {k : Nat} {v : α}
    (h : mapGet m k = some v) : (k, v) ∈ m := by
  unfold mapGet at h
  cases hf : m.find? (fun e => e.1 == k) with
  | none => rw [hf] at h; simp at h
  | some e =>
    rw [hf] at h
    have hk : e.1 = k := by
      have := List.find?_some hf
      simpa using this
    have hv : e.2 = v := by simpa using h
    have : e ∈ m := List.mem_of_find?_eq_some hf
    have he : e = (k, v) := by
      cases e; simp at hk hv; simp [hk, hv]
    rwa [he] at this

/-! ### C1 / C9 — the feedback route -/

/-- When the candidate exists (and its `id` field agrees with its map key,
as every store-created record does), `POST /api/feedback` rewrites the
stored candidate to the decision-merge of the old record. -/
theorem postFeedback_candidates_eq (st : CandState) (f : InsertFeedback)
    (cand : Candidate)
    (hget : mapGet st.candidates f.candidateId = some cand)
    (hid : cand.id = f.candidateId) :
    (postFeedback st f).1.candidates
      = mapSet st.candidates f.candidateId
          (mergeCandidate cand (feedbackCandidateUpdate f)) := by
  have hc1 : (createFeedback st f).1.candidates = st.candidates := rfl
  unfold postFeedback
  simp only [hc1, hget]
  unfold updateCandidate
  simp only [hc1, hid, hget]

/-- C1 (amended).  For a feedback on an existing candidate: `next` sets
status `in_queue` and moves the round to `nextRound` when that is present
*and non-empty* (a present empty string is dropped by the JS truthiness
check, leaving the round unchanged); `reject` sets `rejected` with the
round unchanged; any other decision (`hold`) sets `in_queue` with the
round unchanged; in all cases `assignedPanel` is cleared. -/
theorem feedback_decision_transition (st : CandState) (f : InsertFeedback)
    (cand : Candidate)
    (hget : mapGet st.candidates f.candidateId = some cand)
    (hid : cand.id = f.candidateId) :
    ∃ cand',
      mapGet (postFeedback st f).1.candidates f.candidateId = some cand' ∧
      cand'.assignedPanel = none ∧
      (f.decision = "next" →
        cand'.status = "in_queue" ∧
        cand'.currentRound =
          (match f.nextRound with
           | some s => if s = "" then cand.currentRound else s
           | none => cand.currentRound)) ∧
      (f.decision = "reject" →
        cand'.status = "rejected" ∧ cand'.currentRound = cand.currentRound) ∧
      (f.decision ≠ "next" → f.decision ≠ "reject" →
        cand'.status = "in_queue" ∧ cand'.currentRound = cand.currentRound) := by
  refine ⟨mergeCandidate cand (feedbackCandidateUpdate f), ?_, ?_, ?_, ?_, ?_⟩
  · rw [postFeedback_candidates_eq st f cand hget hid]
    exact mapGet_mapSet_self _ _ _
  · simp [mergeCandidate, feedbackCandidateUpdate]
  · intro hnext
    constructor
    · simp [mergeCandidate, feedbackCandidateUpdate, hnext]
    · cases hnr : f.nextRound with
      | none => simp [mergeCandidate, feedbackCandidateUpdate, hnext, hnr]
      | some s =>
        by_cases hs : s = ""
        · simp [mergeCandidate, feedbackCandidateUpdate, hnext, hnr, hs]
        · have hs' : (s == "") = false := by simpa using hs
          simp [mergeCandidate, feedbackCandidateUpdate, hnext, hnr, hs, hs']
  · intro hrej
    have hne : ("reject" == "next") = false := by decide
    constructor
    · simp [mergeCandidate, feedbackCandidateUpdate, hrej, hne]
    · simp [mergeCandidate, feedbackCandidateUpdate, hrej, hne]
  · intro hnn hnr
    have h1 : (f.decision == "next") = false := by simpa using hnn
    have h2 : (f.decision == "reject") = false := by simpa using hnr
    constructor
    · simp [mergeCandidate, feedbackCandidateUpdate, h1, h2]
    · simp [mergeCandidate, feedbackCandidateUpdate, h1, h2]

/-- Witness for `feedback_decision_transition`: feedback `next → screening`
on the stored `gd` candidate. -/
theorem feedback_decision_transition_witness :
    ∃ cand',
      mapGet (postFeedback cstFix fbScreening).1.candidates fbScreening.candidateId
        = some cand' ∧
      cand'.assignedPanel = none ∧
      (fbScreening.decision = "next" →
        cand'.status = "in_queue" ∧
        cand'.currentRound =
          (match fbScreening.nextRound with
           | some s => if s = "" then candGd.currentRound else s
           | none => candGd.currentRound)) ∧
      (fbScreening.decision = "reject" →
        cand'.status = "rejected" ∧ cand'.currentRound = candGd.currentRound) ∧
      (fbScreening.decision ≠ "next" → fbScreening.decision ≠ "reject" →
        cand'.status = "in_queue" ∧ cand'.currentRound = candGd.currentRound) :=
  feedback_decision_transition cstFix fbScreening candGd (by decide) (by decide)

/-- Counterexample to C1 as stated: `nextRound` is present and non-null
(the empty string), the decision is `next`, yet the candidate's round does
not become that `nextRound` value — it stays `"gd"`. -/
theorem feedback_empty_nextRound_counterexample :
    fbEmptyNext.decision = "next" ∧ fbEmptyNext.nextRound = some "" ∧
    ¬ ((mapGet (postFeedback cstFix fbEmptyNext).1.candidates
          fbEmptyNext.candidateId).map Candidate.currentRound = some "") := by
  decide

/-- C9.  A feedback whose `candidateId` matches no stored candidate is
still created and returned with HTTP 201, and the candidate table is left
untouched (the transition step is silently skipped). -/
theorem feedback_unknown_candidate (st : CandState) (f : InsertFeedback)
    (h : mapGet st.candidates f.candidateId = none) :
    (postFeedback st f).1.candidates = st.candidates ∧
    (postFeedback st f).2.1 = 201 ∧
    mapGet (postFeedback st f).1.feedbacks st.feedbackCurrentId
      = some (postFeedback st f).2.2 := by
  have hc1 : (createFeedback st f).1.candidates = st.candidates := rfl
  refine ⟨?_, rfl, ?_⟩
  · unfold postFeedback
    simp only [hc1, h]
  · unfold postFeedback
    simp only [hc1, h]
    exact mapGet_mapSet_self _ _ _

/-- Witness for `feedback_unknown_candidate`: candidate 99 is absent. -/
theorem feedback_unknown_candidate_witness :
    (postFeedback cstFix fbOrphan).1.candidates = cstFix.candidates ∧
    (postFeedback cstFix fbOrphan).2.1 = 201 ∧
    mapGet (postFeedback cstFix fbOrphan).1.feedbacks cstFix.feedbackCurrentId
      = some (postFeedback cstFix fbOrphan).2.2 :=
  feedback_unknown_candidate cstFix fbOrphan (by decide)

/-! ### C3 — assign-panel on a missing room or panel -/

/-- C3 (amended).  At the store level, `MemStorage.assignPanelToRoom`
signals not-found (`none`) and performs no mutation whenever the room key
or the panel key is absent: the `none` result carries no successor state,
so the caller's state is untouched. -/
theorem assignPanelToRoom_not_found (st : RPState) (roomId panelId : Nat)
    (h : mapGet st.rooms roomId = none ∨ mapGet st.panels panelId = none) :
    assignPanelToRoom st roomId panelId = none := by
  unfold assignPanelToRoom
  rcases h with h | h
  · simp [h]
  · cases hr : mapGet st.rooms roomId with
    | none => simp
    | some room => simp [h]

/-- Witness for `assignPanelToRoom_not_found`: room 999 does not exist. -/
theorem assignPanelToRoom_not_found_witness :
    assignPanelToRoom rpFix 999 1 = none :=
  assignPanelToRoom_not_found rpFix 999 1 (Or.inl (by decide))

/-- Counterexample to C3 as stated over the whole assign-panel operation:
the HTTP route detaches panel 1 from room 101 (clearing the room's list,
its occupied flag and the panel's `roomNo`) *before* discovering that the
target room 999 does not exist, so the not-found response is returned from
a mutated store. -/
theorem routeAssignPanel_not_found_mutates_counterexample :
    (routeAssignPanel rpFix 999 1).2 = none ∧
    (routeAssignPanel rpFix 999 1).1 ≠ rpFix := by
  decide

/-! ### C5 — the room occupancy invariant -/

/-- Shape of a successful `removePanelFromRoom`: either the early-return
no-op, or the room is rewritten to `r'` whose occupied flag is recomputed
from its filtered list (the panel-`roomNo` clearing never touches
`rooms`). -/
theorem removePanelFromRoom_rooms_spec (st st' : RPState) (roomId panelId : Nat)
    (r' : Room)
    (h : removePanelFromRoom st roomId panelId = some (st', r')) :
    (st' = st ∧ (roomId, r') ∈ st.rooms) ∨
    (st'.rooms = mapSet st.rooms roomId r' ∧
      r'.isOccupied = decide (r'.assignedPanels.length > 0)) := by
  unfold removePanelFromRoom at h
  cases hr : mapGet st.rooms roomId with
  | none => rw [hr] at h; exact absurd h (by simp)
  | some room =>
    rw [hr] at h
    cases hc : room.assignedPanels.contains panelId with
    | false =>
      simp only [hc, Bool.false_eq_true, if_false] at h
      obtain ⟨hst, hr'⟩ := by simpa using h
      left
      exact ⟨hst.symm, hr' ▸ mapGet_mem hr⟩
    | true =>
      simp only [hc, if_true, Option.some.injEq, Prod.mk.injEq] at h
      obtain ⟨hst, hr'⟩ := h
      subst hr'
      right
      refine ⟨?_, rfl⟩
      rw [← hst]
      cases hp : mapGet st.panels panelId with
      | none => simp only [hp]
      | some p =>
        simp only [hp]
        by_cases hifc : (p.roomNo == room.roomNumber) = true
        · simp only [hifc, if_true]
        · simp only [Bool.eq_false_iff.mpr hifc, Bool.false_eq_true, if_false]

/-- C5 (amended).  The two bookkeeping operations — `assignPanelToRoom` and
`removePanelFromRoom` — preserve `occupied == (assigned panel list
non-empty)` for every stored room: the room they rewrite gets the flag
recomputed from its new list, every other room is untouched. -/
theorem assign_remove_preserve_occ_inv (st st' : RPState) (roomId panelId : Nat)
    (r' : Room) (hinv : OccInv st)
    (h : assignPanelToRoom st roomId panelId = some (st', r') ∨
         removePanelFromRoom st roomId panelId = some (st', r')) :
    OccInv st' := by
  rcases h with h | h
  · unfold assignPanelToRoom at h
    cases hr : mapGet st.rooms roomId with
    | none => rw [hr] at h; exact absurd h (by simp)
    | some room =>
      rw [hr] at h
      cases hp : mapGet st.panels panelId with
      | none => rw [hp] at h; exact absurd h (by simp)
      | some p =>
        rw [hp] at h
        cases hc : room.assignedPanels.contains panelId with
        | true =>
          simp only [hc, if_true] at h
          obtain ⟨hst, -⟩ := by simpa using h
          rw [← hst]; exact hinv
        | false =>
          simp only [hc, Bool.false_eq_true, if_false] at h
          obtain ⟨hst, -⟩ := by simpa using h
          intro e he
          rw [← hst] at he
          rcases mem_mapSet he with rfl | hmem
          · simp
          · exact hinv e hmem
  · rcases removePanelFromRoom_rooms_spec st st' roomId panelId r' h with
      ⟨rfl, -⟩ | ⟨hrooms, hocc⟩
    · exact hinv
    · intro e he
      rw [hrooms] at he
      rcases mem_mapSet he with rfl | hmem
      · show r'.isOccupied = !r'.assignedPanels.isEmpty
        rw [hocc]
        cases r'.assignedPanels <;> simp
      · exact hinv e hmem

/-- Witness for `assign_remove_preserve_occ_inv`: assigning free panel 1 to
empty room 1 keeps the invariant. -/
theorem assign_remove_preserve_occ_inv_witness : OccInv rpFix :=
  assign_remove_preserve_occ_inv rpFree rpFix 1 1 roomFix
    (by intro e he; simp [rpFree] at he; subst he; rfl)
    (Or.inl (by decide))

/-- Counterexample to C5 as stated: the update operation
(`PATCH /api/rooms/:id` → `MemStorage.updateRoom`) merges caller-supplied
fields verbatim, so `{ isOccupied: true }` on a room with no assigned
panels yields a stored room violating `occupied == non-empty`. -/
theorem updateRoom_breaks_occ_inv_counterexample :
    OccInv rpFree ∧
    (updateRoom rpFree 1 occTrueUpd).map (fun x => x.1) = some rpBroken ∧
    ¬ OccInv rpBroken := by
  refine ⟨?_, by decide, ?_⟩
  · intro e he
    simp [rpFree] at he
    subst he
    rfl
  · intro hcontra
    have hbad := hcontra (1, { roomFix with isOccupied := true, assignedPanels := [] })
      (by simp [rpBroken])
    simp at hbad

/-! ### C7 — partial updates: frame property and idempotence -/

theorem mapSet_any_self {α : Type} (m : List (Nat × α)) (k : Nat) (v : α) :
    (mapSet m k v).any (fun e => e.1 == k) = true := by
  unfold mapSet
  by_cases hany : m.any (fun e => e.1 == k) = true
  · rw [if_pos hany]
    rcases List.any_eq_true.mp hany with ⟨e, he, hk⟩
    exact List.any_eq_true.mpr ⟨(k, v), List.mem_map.mpr ⟨e, he, by simp [hk]⟩, by simp⟩
  · rw [if_neg hany]
    refine List.any_eq_true.mpr ⟨(k, v), ?_, ?_⟩ <;> simp

/-- Overwriting the same key with the same value twice equals doing it
once. -/
theorem mapSet_mapSet_self {α : Type} (m : List (Nat × α)) (k : Nat) (v : α) :
    mapSet (mapSet m k v) k v = mapSet m k v := by
  by_cases h0 : m.any (fun e => e.1 == k) = true
  · have h1 : mapSet m k v = m.map (fun e => if e.1 == k then (k, v) else e) := by
      rw [mapSet, if_pos h0]
    have hany : (m.map (fun e => if e.1 == k then (k, v) else e)).any
        (fun e => e.1 == k) = true := by
      rw [← h1]; exact mapSet_any_self m k v
    rw [h1, mapSet, if_pos hany, List.map_map]
    apply List.map_congr_left
    intro e _
    by_cases he : e.1 = k
    · simp [Function.comp, he]
    · have he' : (e.1 == k) = false := by simpa using he
      simp [Function.comp, he']
  · have h1 : mapSet m k v = m ++ [(k, v)] := by
      rw [mapSet, if_neg h0]
    have hany : (m ++ [(k, v)]).any (fun e => e.1 == k) = true := by
      refine List.any_eq_true.mpr ⟨(k, v), ?_, ?_⟩ <;> simp
    have hm : List.map (fun e => if e.1 == k then (k, v) else e) m = m := by
      have hall : ∀ e ∈ m, (e.1 == k) = false := by
        intro e he
        by_contra hc
        exact h0 (List.any_eq_true.mpr ⟨e, he, by simpa using hc⟩)
      calc List.map (fun e => if e.1 == k then (k, v) else e) m
          = List.map id m := by
            apply List.map_congr_left
            intro e he
            simp [hall e he]
        _ = m := List.map_id m
    rw [h1, mapSet, if_pos hany, List.map_append, hm]
    simp

theorem getD_getD_self {α : Type} (o : Option α) (x : α) :
    o.getD (o.getD x) = o.getD x := by
  cases o <;> rfl

theorem mergeCandidate_idem (c : Candidate) (u : CandidateUpdate) :
    mergeCandidate (mergeCandidate c u) u = mergeCandidate c u := by
  simp only [mergeCandidate, getD_getD_self]

theorem mergeRolePermission_idem (r : RolePermission) (u : RolePermissionUpdate)
    (now : Nat) :
    mergeRolePermission (mergeRolePermission r u now) u now
      = mergeRolePermission r u now := by
  simp only [mergeRolePermission, getD_getD_self]

theorem mergeUser_idem (c : User) (u : UserUpdate) :
    mergeUser (mergeUser c u) u = mergeUser c u := by
  simp only [mergeUser, getD_getD_self]

theorem mergePanel_idem (p : Panel) (u : PanelUpdate) :
    mergePanel (mergePanel p u) u = mergePanel p u := by
  simp only [mergePanel, getD_getD_self]

theorem mergeRoom_idem (r : Room) (u : RoomUpdate) :
    mergeRoom (mergeRoom r u) u = mergeRoom r u := by
  simp only [mergeRoom, getD_getD_self]

/-- C7 (amended).  For every updatable entity kind — candidate, user,
panel, room and role permission — `update` leaves every field absent from
the partial unchanged and is idempotent; the one exception is
`updateRolePermission`, which always overwrites `updatedAt` with the
current clock and is idempotent only at a fixed clock value. -/
theorem update_frame_and_idempotent
    (cst : CandState) (cid : Nat) (cu : CandidateUpdate) (c : Candidate)
    (cst' : CandState) (c' : Candidate)
    (ast : AdminState) (rid : Nat) (ru : RolePermissionUpdate) (r : RolePermission)
    (now : Nat) (ast' : AdminState) (r' : RolePermission)
    (ust : AdminState) (uid : Nat) (uu : UserUpdate) (usr : User)
    (ust' : AdminState) (usr' : User)
    (pst : RPState) (pid : Nat) (pu : PanelUpdate) (pl : Panel)
    (pst' : RPState) (pl' : Panel)
    (rst : RPState) (rmid : Nat) (rmu : RoomUpdate) (rm : Room)
    (rst' : RPState) (rm' : Room)
    (hcg : mapGet cst.candidates cid = some c)
    (hc : updateCandidate cst cid cu = some (cst', c'))
    (hrg : mapGet ast.rolePermissions rid = some r)
    (hr : updateRolePermission ast rid ru now = some (ast', r'))
    (hug : mapGet ust.users uid = some usr)
    (hu : updateUser ust uid uu = some (ust', usr'))
    (hpg : mapGet pst.panels pid = some pl)
    (hpu : updatePanel pst pid pu = some (pst', pl'))
    (hmg : mapGet rst.rooms rmid = some rm)
    (hmu : updateRoom rst rmid rmu = some (rst', rm')) :
    ((cu.serialNo = none → c'.serialNo = c.serialNo) ∧
     (cu.name = none → c'.name = c.name) ∧
     (cu.email = none → c'.email = c.email) ∧
     (cu.position = none → c'.position = c.position) ∧
     (cu.timestamp = none → c'.timestamp = c.timestamp) ∧
     (cu.status = none → c'.status = c.status) ∧
     (cu.currentRound = none → c'.currentRound = c.currentRound) ∧
     (cu.assignedPanel = none → c'.assignedPanel = c.assignedPanel) ∧
     (cu.roomNo = none → c'.roomNo = c.roomNo) ∧
     (cu.qrCodeUrl = none → c'.qrCodeUrl = c.qrCodeUrl)) ∧
    updateCandidate cst' cid cu = some (cst', c') ∧
    ((ru.role = none → r'.role = r.role) ∧
     (ru.permissions = none → r'.permissions = r.permissions) ∧
     (ru.description = none → r'.description = r.description) ∧
     (ru.createdAt = none → r'.createdAt = r.createdAt) ∧
     r'.updatedAt = now) ∧
    updateRolePermission ast' rid ru now = some (ast', r') ∧
    ((uu.username = none → usr'.username = usr.username) ∧
     (uu.password = none → usr'.password = usr.password) ∧
     (uu.role = none → usr'.role = usr.role) ∧
     (uu.name = none → usr'.name = usr.name) ∧
     (uu.email = none → usr'.email = usr.email) ∧
     (uu.permissions = none → usr'.permissions = usr.permissions) ∧
     (uu.isActive = none → usr'.isActive = usr.isActive) ∧
     (uu.createdAt = none → usr'.createdAt = usr.createdAt)) ∧
    updateUser ust' uid uu = some (ust', usr') ∧
    ((pu.name = none → pl'.name = pl.name) ∧
     (pu.roomNo = none → pl'.roomNo = pl.roomNo) ∧
     (pu.isActive = none → pl'.isActive = pl.isActive) ∧
     (pu.currentCandidate = none → pl'.currentCandidate = pl.currentCandidate) ∧
     (pu.panelMembers = none → pl'.panelMembers = pl.panelMembers)) ∧
    updatePanel pst' pid pu = some (pst', pl') ∧
    ((rmu.roomNumber = none → rm'.roomNumber = rm.roomNumber) ∧
     (rmu.capacity = none → rm'.capacity = rm.capacity) ∧
     (rmu.floor = none → rm'.floor = rm.floor) ∧
     (rmu.type = none → rm'.type = rm.type) ∧
     (rmu.isOccupied = none → rm'.isOccupied = rm.isOccupied) ∧
     (rmu.assignedPanels = none → rm'.assignedPanels = rm.assignedPanels)) ∧
    updateRoom rst' rmid rmu = some (rst', rm') := by
  unfold updateCandidate at hc
  rw [hcg] at hc
  simp only [Option.some.injEq, Prod.mk.injEq] at hc
  obtain ⟨hst, hc'⟩ := hc
  unfold updateRolePermission at hr
  rw [hrg] at hr
  simp only [Option.some.injEq, Prod.mk.injEq] at hr
  obtain ⟨hast, hr'⟩ := hr
  unfold updateUser at hu
  rw [hug] at hu
  simp only [Option.some.injEq, Prod.mk.injEq] at hu
  obtain ⟨hust, hu'⟩ := hu
  unfold updatePanel at hpu
  rw [hpg] at hpu
  simp only [Option.some.injEq, Prod.mk.injEq] at hpu
  obtain ⟨hpst, hp'⟩ := hpu
  unfold updateRoom at hmu
  rw [hmg] at hmu
  simp only [Option.some.injEq, Prod.mk.injEq] at hmu
  obtain ⟨hrst, hm'⟩ := hmu
  refine ⟨?_, ?_, ?_, ?_, ?_, ?_, ?_, ?_, ?_, ?_⟩
  · subst hc'
    exact ⟨fun h => by simp [mergeCandidate, h], fun h => by simp [mergeCandidate, h],
           fun h => by simp [mergeCandidate, h], fun h => by simp [mergeCandidate, h],
           fun h => by simp [mergeCandidate, h], fun h => by simp [mergeCandidate, h],
           fun h => by simp [mergeCandidate, h], fun h => by simp [mergeCandidate, h],
           fun h => by simp [mergeCandidate, h], fun h => by simp [mergeCandidate, h]⟩
  · unfold updateCandidate
    have hget' : mapGet cst'.candidates cid = some c' := by
      rw [← hst, ← hc']
      exact mapGet_mapSet_self _ _ _
    have h1 : mergeCandidate c' cu = c' := by
      rw [← hc']; exact mergeCandidate_idem c cu
    have h2 : mapSet cst'.candidates cid c' = cst'.candidates := by
      rw [← hst, ← hc']
      exact mapSet_mapSet_self _ _ _
    simp only [hget', h1, h2]
  · subst hr'
    exact ⟨fun h => by simp [mergeRolePermission, h], fun h => by simp [mergeRolePermission, h],
           fun h => by simp [mergeRolePermission, h], fun h => by simp [mergeRolePermission, h],
           rfl⟩
  · unfold updateRolePermission
    have hget' : mapGet ast'.rolePermissions rid = some r' := by
      rw [← hast, ← hr']
      exact mapGet_mapSet_self _ _ _
    have h1 : mergeRolePermission r' ru now = r' := by
      rw [← hr']; exact mergeRolePermission_idem r ru now
    have h2 : mapSet ast'.rolePermissions rid r' = ast'.rolePermissions := by
      rw [← hast, ← hr']
      exact mapSet_mapSet_self _ _ _
    simp only [hget', h1, h2]
  · subst hu'
    exact ⟨fun h => by simp [mergeUser, h], fun h => by simp [mergeUser, h],
           fun h => by simp [mergeUser, h], fun h => by simp [mergeUser, h],
           fun h => by simp [mergeUser, h], fun h => by simp [mergeUser, h],
           fun h => by simp [mergeUser, h], fun h => by simp [mergeUser, h]⟩
  · unfold updateUser
    have hget' : mapGet ust'.users uid = some usr' := by
      rw [← hust, ← hu']
      exact mapGet_mapSet_self _ _ _
    have h1 : mergeUser usr' uu = usr' := by
      rw [← hu']; exact mergeUser_idem usr uu
    have h2 : mapSet ust'.users uid usr' = ust'.users := by
      rw [← hust, ← hu']
      exact mapSet_mapSet_self _ _ _
    simp only [hget', h1, h2]
  · subst hp'
    exact ⟨fun h => by simp [mergePanel, h], fun h => by simp [mergePanel, h],
           fun h => by simp [mergePanel, h], fun h => by simp [mergePanel, h],
           fun h => by simp [mergePanel, h]⟩
  · unfold updatePanel
    have hget' : mapGet pst'.panels pid = some pl' := by
      rw [← hpst, ← hp']
      exact mapGet_mapSet_self _ _ _
    have h1 : mergePanel pl' pu = pl' := by
      rw [← hp']; exact mergePanel_idem pl pu
    have h2 : mapSet pst'.panels pid pl' = pst'.panels := by
      rw [← hpst, ← hp']
      exact mapSet_mapSet_self _ _ _
    simp only [hget', h1, h2]
  · subst hm'
    exact ⟨fun h => by simp [mergeRoom, h], fun h => by simp [mergeRoom, h],
           fun h => by simp [mergeRoom, h], fun h => by simp [mergeRoom, h],
           fun h => by simp [mergeRoom, h], fun h => by simp [mergeRoom, h]⟩
  · unfold updateRoom
    have hget' : mapGet rst'.rooms rmid = some rm' := by
      rw [← hrst, ← hm']
      exact mapGet_mapSet_self _ _ _
    have h1 : mergeRoom rm' rmu = rm' := by
      rw [← hm']; exact mergeRoom_idem rm rmu
    have h2 : mapSet rst'.rooms rmid rm' = rst'.rooms := by
      rw [← hrst, ← hm']
      exact mapSet_mapSet_self _ _ _
    simp only [hget', h1, h2]

/-- Witness for `update_frame_and_idempotent`: no-op updates on the seeded
candidate, role permission (clock fixed at 5), user, panel and room. -/
theorem update_frame_and_idempotent_witness :
    ((({} : CandidateUpdate).serialNo = none → candGd.serialNo = candGd.serialNo) ∧
     (({} : CandidateUpdate).name = none → candGd.name = candGd.name) ∧
     (({} : CandidateUpdate).email = none → candGd.email = candGd.email) ∧
     (({} : CandidateUpdate).position = none → candGd.position = candGd.position) ∧
     (({} : CandidateUpdate).timestamp = none → candGd.timestamp = candGd.timestamp) ∧
     (({} : CandidateUpdate).status = none → candGd.status = candGd.status) ∧
     (({} : CandidateUpdate).currentRound = none → candGd.currentRound = candGd.currentRound) ∧
     (({} : CandidateUpdate).assignedPanel = none → candGd.assignedPanel = candGd.assignedPanel) ∧
     (({} : CandidateUpdate).roomNo = none → candGd.roomNo = candGd.roomNo) ∧
     (({} : CandidateUpdate).qrCodeUrl = none → candGd.qrCodeUrl = candGd.qrCodeUrl)) ∧
    updateCandidate cstFix 1 {} = some (cstFix, candGd) ∧
    ((({} : RolePermissionUpdate).role = none → rpPermFix5.role = rpPermFix.role) ∧
     (({} : RolePermissionUpdate).permissions = none →
        rpPermFix5.permissions = rpPermFix.permissions) ∧
     (({} : RolePermissionUpdate).description = none →
        rpPermFix5.description = rpPermFix.description) ∧
     (({} : RolePermissionUpdate).createdAt = none →
        rpPermFix5.createdAt = rpPermFix.createdAt) ∧
     rpPermFix5.updatedAt = 5) ∧
    updateRolePermission adminFix5 1 {} 5 = some (adminFix5, rpPermFix5) ∧
    ((({} : UserUpdate).username = none → userFix.username = userFix.username) ∧
     (({} : UserUpdate).password = none → userFix.password = userFix.password) ∧
     (({} : UserUpdate).role = none → userFix.role = userFix.role) ∧
     (({} : UserUpdate).name = none → userFix.name = userFix.name) ∧
     (({} : UserUpdate).email = none → userFix.email = userFix.email) ∧
     (({} : UserUpdate).permissions = none → userFix.permissions = userFix.permissions) ∧
     (({} : UserUpdate).isActive = none → userFix.isActive = userFix.isActive) ∧
     (({} : UserUpdate).createdAt = none → userFix.createdAt = userFix.createdAt)) ∧
    updateUser adminFix 1 {} = some (adminFix, userFix) ∧
    ((({} : PanelUpdate).name = none → panelFix.name = panelFix.name) ∧
     (({} : PanelUpdate).roomNo = none → panelFix.roomNo = panelFix.roomNo) ∧
     (({} : PanelUpdate).isActive = none → panelFix.isActive = panelFix.isActive) ∧
     (({} : PanelUpdate).currentCandidate = none →
        panelFix.currentCandidate = panelFix.currentCandidate) ∧
     (({} : PanelUpdate).panelMembers = none →
        panelFix.panelMembers = panelFix.panelMembers)) ∧
    updatePanel rpFix 1 {} = some (rpFix, panelFix) ∧
    ((({} : RoomUpdate).roomNumber = none → roomFix.roomNumber = roomFix.roomNumber) ∧
     (({} : RoomUpdate).capacity = none → roomFix.capacity = roomFix.capacity) ∧
     (({} : RoomUpdate).floor = none → roomFix.floor = roomFix.floor) ∧
     (({} : RoomUpdate).type = none → roomFix.type = roomFix.type) ∧
     (({} : RoomUpdate).isOccupied = none → roomFix.isOccupied = roomFix.isOccupied) ∧
     (({} : RoomUpdate).assignedPanels = none →
        roomFix.assignedPanels = roomFix.assignedPanels)) ∧
    updateRoom rpFix 1 {} = some (rpFix, roomFix) :=
  update_frame_and_idempotent cstFix 1 {} candGd cstFix candGd
    adminFix 1 {} rpPermFix 5 adminFix5 rpPermFix5
    adminFix 1 {} userFix adminFix userFix
    rpFix 1 {} panelFix rpFix panelFix
    rpFix 1 {} roomFix rpFix roomFix
    (by decide) (by decide) (by decide) (by decide) (by decide)
    (by decide) (by decide) (by decide) (by decide) (by decide)

/-- Counterexample to C7 as stated: a no-op role-permission update at
clock 5 changes `updatedAt` (0 → 5) even though that field is absent from
the partial. -/
theorem updateRolePermission_updatedAt_counterexample :
    (({} : RolePermissionUpdate).updatedAt = none) ∧
    rpPermFix.updatedAt = 0 ∧
    (updateRolePermission adminFix 1 {} 5).map (fun x => x.2.updatedAt) = some 5 := by
  decide

/-! ### C6 — monotone, never-reused identifiers -/

theorem idsForKind_cons (k : EntityKind) (e : EntityKind × Nat)
    (tr : List (EntityKind × Nat)) :
    idsForKind k (e :: tr)
      = if e.1 == k then e.2 :: idsForKind k tr else idsForKind k tr := by
  by_cases h : (e.1 == k) = true
  · simp [idsForKind, List.filter_cons, h]
  · simp [idsForKind, List.filter_cons, Bool.eq_false_iff.mpr h]

theorem runStoreOps_cons (st : MemState) (op : StoreOp) (ops : List StoreOp) :
    runStoreOps st (op :: ops)
      = ((runStoreOps (stepStoreOp st op).1 ops).1,
         match (stepStoreOp st op).2 with
         | some e => e :: (runStoreOps (stepStoreOp st op).1 ops).2
         | none => (runStoreOps (stepStoreOp st op).1 ops).2) := rfl

/-- No call ever decreases any kind's counter. -/
theorem stepStoreOp_counter_mono (st : MemState) (op : StoreOp) (k : EntityKind) :
    counterFor k st ≤ counterFor k (stepStoreOp st op).1 := by
  cases op <;> cases k <;>
    simp [stepStoreOp, counterFor, createUser, deleteUser, createCandidate,
      createPanel, createFeedback, createRoom, createCandidateFeedback,
      createRolePermission, deleteRolePermission, mapDelete]

/-- A create returns its kind's current counter and bumps exactly that
counter. -/
theorem stepStoreOp_created (st : MemState) (op : StoreOp) (k : EntityKind) (i : Nat)
    (h : (stepStoreOp st op).2 = some (k, i)) :
    i = counterFor k st ∧
    counterFor k (stepStoreOp st op).1 = counterFor k st + 1 := by
  cases op <;> cases k <;>
    simp_all [stepStoreOp, counterFor, createUser, createCandidate, createPanel,
      createFeedback, createRoom, createCandidateFeedback, createRolePermission]

/-- Every id a run returns for a kind is at least that kind's counter at
the start of the run. -/
theorem runStoreOps_ids_lower (ops : List StoreOp) :
    ∀ (st : MemState) (k : EntityKind),
      ∀ i ∈ idsForKind k (runStoreOps st ops).2, counterFor k st ≤ i := by
  induction ops with
  | nil => intro st k i hi; simp [runStoreOps, idsForKind] at hi
  | cons op ops ih =>
    intro st k i hi
    rw [runStoreOps_cons] at hi
    cases h2 : (stepStoreOp st op).2 with
    | none =>
      simp only [h2] at hi
      exact le_trans (stepStoreOp_counter_mono st op k) (ih _ k i hi)
    | some e =>
      simp only [h2, idsForKind_cons] at hi
      by_cases hk : (e.1 == k) = true
      · rw [if_pos hk] at hi
        have hek : e.1 = k := by simpa using hk
        rcases List.mem_cons.mp hi with rfl | hmem
        · have hcr := stepStoreOp_created st op e.1 e.2 (by rw [h2])
          rw [hek] at hcr
          exact le_of_eq hcr.1.symm
        · exact le_trans (stepStoreOp_counter_mono st op k) (ih _ k i hmem)
      · rw [if_neg hk] at hi
        exact le_trans (stepStoreOp_counter_mono st op k) (ih _ k i hi)

/-- C6.  Over any sequence of create and delete calls on the store — all
seven entity kinds, with deletes on the two deletable kinds — from any
starting state, the identifiers returned by the successive creates of any
one kind are pairwise strictly increasing; so an id is never reused, even
after a delete. -/
theorem create_ids_strictly_increasing (ops : List StoreOp) :
    ∀ (st : MemState) (k : EntityKind),
      (idsForKind k (runStoreOps st ops).2).Pairwise (· < ·) := by
  induction ops with
  | nil => intro st k; simp [runStoreOps, idsForKind]
  | cons op ops ih =>
    intro st k
    rw [runStoreOps_cons]
    cases h2 : (stepStoreOp st op).2 with
    | none =>
      simp only [h2]
      exact ih _ k
    | some e =>
      simp only [h2, idsForKind_cons]
      by_cases hk : (e.1 == k) = true
      · rw [if_pos hk]
        have hek : e.1 = k := by simpa using hk
        refine List.pairwise_cons.mpr ⟨?_, ih _ k⟩
        intro j hj
        have hcr := stepStoreOp_created st op e.1 e.2 (by rw [h2])
        rw [hek] at hcr
        obtain ⟨hci, hcs⟩ := hcr
        have hlo := runStoreOps_ids_lower ops (stepStoreOp st op).1 k j hj
        omega
      · rw [if_neg hk]
        exact ih _ k

/-! ### C10 — responses never expose the password -/

/-- The destructuring `const { password, ...safeUser } = user` removes the
password key. -/
theorem safeUserJson_keys (u : User) :
    jKeys (safeUserJson u) =
      ["id", "username", "role", "name", "email", "permissions", "isActive",
       "createdAt"] := rfl

/-- C10.  None of the login / list / get / create / update user responses
contains a `password` key, even though the store keeps plaintext passwords
(`userToJson` shows the stored record does carry one). -/
theorem user_routes_never_expose_password (st : AdminState)
    (username password : String) (id now : Nat) (iu : InsertUser) (uu : UserUpdate) :
    (∀ v, loginResponse st username password = some v → "password" ∉ jKeys v) ∧
    (∀ v ∈ (match getUsersResponse st with | .jArr vs => vs | _ => []),
      "password" ∉ jKeys v) ∧
    (∀ v, getUserResponse st id = some v → "password" ∉ jKeys v) ∧
    ("password" ∉ jKeys (postUserResponse st iu now).2) ∧
    (∀ r, patchUserResponse st id uu = some r → "password" ∉ jKeys r.2) := by
  refine ⟨?_, ?_, ?_, ?_, ?_⟩
  · intro v hv
    unfold loginResponse at hv
    by_cases h0 : (username == "" || password == "") = true
    · rw [if_pos h0] at hv; exact absurd hv (by simp)
    · rw [if_neg h0] at hv
      cases hf : (mapValues st.users).find? (fun u => u.username == username) with
      | none => simp only [hf] at hv; exact absurd hv (by simp)
      | some user =>
        simp only [hf] at hv
        by_cases hpw : (user.password != password) = true
        · rw [if_pos hpw] at hv; exact absurd hv (by simp)
        · rw [if_neg hpw] at hv
          have hv' : v = JVal.jObj [("id", .jNum user.id), ("username", .jStr user.username),
              ("name", .jStr user.name), ("email", .jStr user.email),
              ("role", .jStr user.role)] := by
            simpa using hv.symm
          rw [hv',
            show jKeys (JVal.jObj [("id", JVal.jNum user.id),
                ("username", JVal.jStr user.username), ("name", JVal.jStr user.name),
                ("email", JVal.jStr user.email), ("role", JVal.jStr user.role)])
              = ["id", "username", "name", "email", "role"] from rfl]
          decide
  · intro v hv
    unfold getUsersResponse at hv
    simp only at hv
    rcases List.mem_map.mp hv with ⟨u, -, rfl⟩
    rw [safeUserJson_keys]
    decide
  · intro v hv
    unfold getUserResponse at hv
    rcases Option.map_eq_some'.mp hv with ⟨u, -, rfl⟩
    rw [safeUserJson_keys]
    decide
  · rw [show (postUserResponse st iu now).2 = safeUserJson (createUser st iu now).2 from rfl,
      safeUserJson_keys]
    decide
  · intro r hr
    unfold patchUserResponse at hr
    rcases Option.map_eq_some'.mp hr with ⟨x, -, rfl⟩
    rw [show (x.1, safeUserJson x.2).2 = safeUserJson x.2 from rfl, safeUserJson_keys]
    decide

/-- Witness for `user_routes_never_expose_password`: the seeded admin's
login and profile responses. -/
theorem user_routes_never_expose_password_witness :
    "password" ∉ jKeys (JVal.jObj
      [("id", .jNum 1), ("username", .jStr "admin"), ("name", .jStr "Admin User"),
       ("email", .jStr "admin@example.com"), ("role", .jStr "admin")]) ∧
    "password" ∉ jKeys (safeUserJson userFix) :=
  ⟨(user_routes_never_expose_password adminFix "admin" "admin123" 1 7 iuFix {}).1
      _ rfl,
   (user_routes_never_expose_password adminFix "admin" "admin123" 1 7 iuFix {}).2.2.1
      _ rfl⟩

/-! ### C2 — queue position -/

theorem insertByTs_perm (c : Candidate) (l : List Candidate) :
    (insertByTs c l).Perm (c :: l) := by
  induction l with
  | nil => exact List.Perm.refl _
  | cons d ds ih =>
    unfold insertByTs
    by_cases h : c.timestamp ≤ d.timestamp
    · rw [if_pos h]
    · rw [if_neg h]
      exact (List.Perm.cons d ih).trans (List.Perm.swap c d ds)

theorem sortByTs_perm (l : List Candidate) : (sortByTs l).Perm l := by
  induction l with
  | nil => exact List.Perm.refl _
  | cons d ds ih =>
    exact (insertByTs_perm d (sortByTs ds)).trans (List.Perm.cons d ih)

theorem insertByTs_pairwise (c : Candidate) (l : List Candidate)
    (h : l.Pairwise (fun a b => a.timestamp ≤ b.timestamp)) :
    (insertByTs c l).Pairwise (fun a b => a.timestamp ≤ b.timestamp) := by
  induction l with
  | nil => simp [insertByTs]
  | cons d ds ih =>
    rcases List.pairwise_cons.mp h with ⟨hd, hds⟩
    unfold insertByTs
    by_cases hc : c.timestamp ≤ d.timestamp
    · rw [if_pos hc]
      refine List.pairwise_cons.mpr ⟨?_, h⟩
      intro x hx
      rcases List.mem_cons.mp hx with rfl | hx
      · exact hc
      · exact le_trans hc (hd x hx)
    · rw [if_neg hc]
      refine List.pairwise_cons.mpr ⟨?_, ih hds⟩
      intro x hx
      rcases List.mem_cons.mp ((insertByTs_perm c ds).mem_iff.mp hx) with rfl | hx
      · exact le_of_not_le hc
      · exact hd x hx

theorem sortByTs_pairwise (l : List Candidate) :
    (sortByTs l).Pairwise (fun a b => a.timestamp ≤ b.timestamp) := by
  induction l with
  | nil => simp [sortByTs]
  | cons d ds ih => exact insertByTs_pairwise d (sortByTs ds) ih

/-- In a timestamp-sorted, timestamp-distinct list, the `findIndex` of the
(unique) entry with the candidate's email is the number of entries with a
strictly earlier timestamp. -/
theorem findIndexP_sorted_count (c : Candidate) (l : List Candidate)
    (hsort : l.Pairwise (fun a b => a.timestamp ≤ b.timestamp))
    (hdist : l.Pairwise (fun a b => a.timestamp ≠ b.timestamp))
    (hc : c ∈ l)
    (huniq : ∀ d ∈ l, d.email = c.email → d = c) :
    findIndexP (fun d => d.email == c.email) l
      = some (l.countP (fun d => decide (d.timestamp < c.timestamp))) := by
  induction l with
  | nil => exact absurd hc (by simp)
  | cons d t ih =>
    rcases List.pairwise_cons.mp hsort with ⟨hdle, htsort⟩
    rcases List.pairwise_cons.mp hdist with ⟨hdne, htdist⟩
    by_cases hde : (d.email == c.email) = true
    · have hdc : d = c := huniq d (by simp) (by simpa using hde)
      subst hdc
      have hcount : (d :: t).countP (fun x => decide (x.timestamp < d.timestamp)) = 0 := by
        refine List.countP_eq_zero.mpr ?_
        intro x hx
        rcases List.mem_cons.mp hx with rfl | hx
        · simp
        · simp only [decide_eq_true_eq]
          exact not_lt_of_le (hdle x hx)
      rw [hcount]
      unfold findIndexP
      rw [if_pos hde]
    · have hct : c ∈ t := by
        rcases List.mem_cons.mp hc with rfl | h
        · exact absurd hde (by simp)
        · exact h
      have hdlt : d.timestamp < c.timestamp :=
        lt_of_le_of_ne (hdle c hct) (hdne c hct)
      have hih := ih htsort htdist hct
        (fun x hx hmail => huniq x (List.mem_cons_of_mem d hx) hmail)
      unfold findIndexP
      rw [if_neg (by simpa using hde), hih]
      rw [List.countP_cons]
      simp [hdlt]

/-- The first `countP (< T)` entries of a timestamp-sorted list are exactly
the entries below `T`. -/
theorem sorted_take_countP (l : List Candidate) (T : Nat)
    (hsort : l.Pairwise (fun a b => a.timestamp ≤ b.timestamp)) :
    l.take (l.countP (fun d => decide (d.timestamp < T)))
      = l.filter (fun d => decide (d.timestamp < T)) := by
  induction l with
  | nil => rfl
  | cons d t ih =>
    rcases List.pairwise_cons.mp hsort with ⟨hdle, htsort⟩
    by_cases hlt : d.timestamp < T
    · have h1 : (d :: t).countP (fun d => decide (d.timestamp < T))
          = t.countP (fun d => decide (d.timestamp < T)) + 1 := by
        rw [List.countP_cons]; simp [hlt]
      have h2 : (d :: t).filter (fun d => decide (d.timestamp < T))
          = d :: t.filter (fun d => decide (d.timestamp < T)) := by
        rw [List.filter_cons]; simp [hlt]
      rw [h1, h2, List.take_succ_cons, ih htsort]
    · have hzero : t.countP (fun d => decide (d.timestamp < T)) = 0 := by
        refine List.countP_eq_zero.mpr ?_
        intro x hx
        simp only [decide_eq_true_eq]
        intro hxT
        exact hlt (lt_of_le_of_lt (hdle x hx) hxT)
      have hnil : t.filter (fun d => decide (d.timestamp < T)) = [] := by
        refine List.filter_eq_nil_iff.mpr ?_
        intro x hx
        simp only [decide_eq_true_eq]
        intro hxT
        exact hlt (lt_of_le_of_lt (hdle x hx) hxT)
      have h1 : (d :: t).countP (fun d => decide (d.timestamp < T)) = 0 := by
        rw [List.countP_cons, hzero]; simp [hlt]
      have h2 : (d :: t).filter (fun d => decide (d.timestamp < T)) = [] := by
        rw [List.filter_cons, hnil]; simp [hlt]
      rw [h1, h2, List.take_zero]

/-- C2 (amended).  When the viewed candidate is itself in the same-round
`{registered, in_queue}` set, its email is unique there and all timestamps
in that set are pairwise distinct, the page's queue position is `1 +` the
number of such candidates with a strictly earlier registration timestamp,
and "candidates ahead" is exactly that set of earlier candidates, listed in
ascending timestamp order.  (With colliding timestamps the stable sort
breaks ties by original insertion order instead, see the counterexample.) -/
theorem queue_position_spec (cand : Candidate) (allCandidates : List Candidate)
    (hmem : cand ∈ queueFilter cand allCandidates)
    (huniq : ∀ d ∈ queueFilter cand allCandidates, d.email = cand.email → d = cand)
    (hdist : (queueFilter cand allCandidates).Pairwise
      (fun a b => a.timestamp ≠ b.timestamp)) :
    queuePosition cand allCandidates
      = 1 + (queueFilter cand allCandidates).countP
          (fun d => decide (d.timestamp < cand.timestamp)) ∧
    (candidatesAhead cand allCandidates).Perm
      ((queueFilter cand allCandidates).filter
        (fun d => decide (d.timestamp < cand.timestamp))) ∧
    (candidatesAhead cand allCandidates).Pairwise
      (fun a b => a.timestamp ≤ b.timestamp) := by
  have hperm : (sortedQueue cand allCandidates).Perm (queueFilter cand allCandidates) :=
    sortByTs_perm _
  have hsort : (sortedQueue cand allCandidates).Pairwise
      (fun a b => a.timestamp ≤ b.timestamp) :=
    sortByTs_pairwise (queueFilter cand allCandidates)
  have hdistS : (sortedQueue cand allCandidates).Pairwise
      (fun a b => a.timestamp ≠ b.timestamp) :=
    (hperm.pairwise_iff (fun h => h.symm)).mpr hdist
  have hcS : cand ∈ sortedQueue cand allCandidates := hperm.mem_iff.mpr hmem
  have huniqS : ∀ d ∈ sortedQueue cand allCandidates, d.email = cand.email → d = cand :=
    fun d hd => huniq d (hperm.mem_iff.mp hd)
  have hfind := findIndexP_sorted_count cand (sortedQueue cand allCandidates)
    hsort hdistS hcS huniqS
  have hcnt : (sortedQueue cand allCandidates).countP
        (fun d => decide (d.timestamp < cand.timestamp))
      = (queueFilter cand allCandidates).countP
        (fun d => decide (d.timestamp < cand.timestamp)) :=
    hperm.countP_eq _
  refine ⟨?_, ?_, ?_⟩
  · unfold queuePosition
    simp only [hfind, hcnt]
    omega
  · unfold candidatesAhead
    simp only [hfind]
    rw [sorted_take_countP _ _ hsort]
    exact hperm.filter _
  · unfold candidatesAhead
    simp only [hfind]
    rw [sorted_take_countP _ _ hsort]
    exact hsort.filter _

/-- Witness for `queue_position_spec`: two distinct-timestamp registered
candidates; the later one is second in the queue. -/
theorem queue_position_spec_witness :
    queuePosition candGd [candGd, candEarly]
      = 1 + (queueFilter candGd [candGd, candEarly]).countP
          (fun d => decide (d.timestamp < candGd.timestamp)) ∧
    (candidatesAhead candGd [candGd, candEarly]).Perm
      ((queueFilter candGd [candGd, candEarly]).filter
        (fun d => decide (d.timestamp < candGd.timestamp))) ∧
    (candidatesAhead candGd [candGd, candEarly]).Pairwise
      (fun a b => a.timestamp ≤ b.timestamp) :=
  queue_position_spec candGd [candGd, candEarly] (by decide) (by decide) (by decide)

/-- Counterexample to C2 as stated: with a timestamp tie the stable sort
puts the earlier-inserted candidate first, so the later-inserted one has
queue position 2 although zero candidates have a *strictly earlier*
timestamp (the claim's formula would give 1). -/
theorem queue_position_tie_counterexample :
    queuePosition candTie [candGd, candTie] = 2 ∧
    (queueFilter candTie [candGd, candTie]).countP
      (fun d => decide (d.timestamp < candTie.timestamp)) = 0 ∧
    queuePosition candTie [candGd, candTie]
      ≠ 1 + (queueFilter candTie [candGd, candTie]).countP
          (fun d => decide (d.timestamp < candTie.timestamp)) := by
  decide

/-! ### C8 — serial-number generation -/

theorem decDigitsAux_step (fuel m : Nat) :
    decDigitsAux (fuel + 1) (m + 1)
      = (m + 1) % 10 :: decDigitsAux fuel ((m + 1) / 10) := rfl

theorem decDigitsAux_lt_ten :
    ∀ (fuel n : Nat), ∀ d ∈ decDigitsAux fuel n, d < 10 := by
  intro fuel
  induction fuel with
  | zero => intro n d hd; simp [decDigitsAux] at hd
  | succ fuel ih =>
    intro n d hd
    cases n with
    | zero => simp [decDigitsAux] at hd
    | succ m =>
      rw [decDigitsAux_step] at hd
      rcases List.mem_cons.mp hd with rfl | hd
      · exact Nat.mod_lt _ (by norm_num)
      · exact ih _ d hd

theorem digitsVal_decDigitsAux :
    ∀ (fuel n : Nat), n ≤ fuel → digitsVal (decDigitsAux fuel n) = n := by
  intro fuel
  induction fuel with
  | zero =>
    intro n h
    have h0 : n = 0 := Nat.le_zero.mp h
    subst h0; rfl
  | succ fuel ih =>
    intro n h
    cases n with
    | zero => rfl
    | succ m =>
      rw [decDigitsAux_step,
        show digitsVal ((m + 1) % 10 :: decDigitsAux fuel ((m + 1) / 10))
          = (m + 1) % 10 + 10 * digitsVal (decDigitsAux fuel ((m + 1) / 10)) from rfl,
        ih ((m + 1) / 10) (by
          have := Nat.div_lt_self (Nat.succ_pos m) (by norm_num : 1 < 10)
          omega)]
      exact Nat.mod_add_div (m + 1) 10

theorem getLast?_mem_list {α : Type} :
    ∀ (l : List α) (a : α), l.getLast? = some a → a ∈ l := by
  intro l
  induction l with
  | nil => intro a h; simp at h
  | cons d t ih =>
    intro a h
    cases t with
    | nil =>
      rw [List.getLast?_singleton] at h
      simp only [Option.some.injEq] at h
      simp [h]
    | cons e ts =>
      rw [List.getLast?_cons_cons] at h
      exact List.mem_cons_of_mem d (ih a h)

theorem decDigitsAux_getLast_ne_zero :
    ∀ (fuel n : Nat), n ≠ 0 → n ≤ fuel →
      ∀ d, (decDigitsAux fuel n).getLast? = some d → d ≠ 0 := by
  intro fuel
  induction fuel with
  | zero => intro n h0 h; exact absurd (Nat.le_zero.mp h) h0
  | succ fuel ih =>
    intro n h0 h d hd
    cases n with
    | zero => exact absurd rfl h0
    | succ m =>
      rw [decDigitsAux_step] at hd
      by_cases hq : (m + 1) / 10 = 0
      · have hrest : decDigitsAux fuel ((m + 1) / 10) = [] := by
          rw [hq]; cases fuel <;> rfl
        rw [hrest, List.getLast?_singleton] at hd
        simp only [Option.some.injEq] at hd
        have hm10 : m + 1 < 10 := (Nat.div_eq_zero_iff (by norm_num)).mp hq
        rw [← hd, Nat.mod_eq_of_lt hm10]
        exact Nat.succ_ne_zero m
      · have hqle : (m + 1) / 10 ≤ fuel := by
          have := Nat.div_lt_self (Nat.succ_pos m) (by norm_num : 1 < 10)
          omega
        have hrest_ne : decDigitsAux fuel ((m + 1) / 10) ≠ [] := by
          obtain ⟨q, hq'⟩ := Nat.exists_eq_succ_of_ne_zero hq
          cases fuel with
          | zero => omega
          | succ f => rw [hq', decDigitsAux_step]; simp
        obtain ⟨x, xs, hxx⟩ := List.exists_cons_of_ne_nil hrest_ne
        rw [hxx, List.getLast?_cons_cons] at hd
        exact ih ((m + 1) / 10) hq hqle d (by rw [hxx]; exact hd)

theorem digitChar_bounded_inj :
    ∀ d₁ < 10, ∀ d₂ < 10, digitChar d₁ = digitChar d₂ → d₁ = d₂ := by decide

theorem digitChar_ne_zero_char :
    ∀ d < 10, d ≠ 0 → digitChar d ≠ '0' := by decide

theorem map_digitChar_inj :
    ∀ (l₁ l₂ : List Nat), (∀ d ∈ l₁, d < 10) → (∀ d ∈ l₂, d < 10) →
      l₁.map digitChar = l₂.map digitChar → l₁ = l₂ := by
  intro l₁
  induction l₁ with
  | nil =>
    intro l₂ _ _ h
    cases l₂ with
    | nil => rfl
    | cons e es => simp at h
  | cons d ds ih =>
    intro l₂ h₁ h₂ h
    cases l₂ with
    | nil => simp at h
    | cons e es =>
      simp only [List.map_cons, List.cons.injEq] at h
      obtain ⟨hde, hrest⟩ := h
      have hde' : d = e := digitChar_bounded_inj d (h₁ d (by simp)) e (h₂ e (by simp)) hde
      rw [hde', ih es (fun x hx => h₁ x (by simp [hx])) (fun x hx => h₂ x (by simp [hx])) hrest]

theorem replicate_zero_append_inj :
    ∀ (k₁ k₂ : Nat) (s₁ s₂ : List Char),
      (∀ c, s₁.head? = some c → c ≠ '0') → (∀ c, s₂.head? = some c → c ≠ '0') →
      List.replicate k₁ '0' ++ s₁ = List.replicate k₂ '0' ++ s₂ → s₁ = s₂ := by
  intro k₁
  induction k₁ with
  | zero =>
    intro k₂ s₁ s₂ h₁ h₂ h
    cases k₂ with
    | zero => simpa using h
    | succ k =>
      rw [List.replicate_succ] at h
      simp only [List.replicate_zero, List.nil_append, List.cons_append] at h
      exact absurd rfl (h₁ '0' (by rw [h]; rfl))
  | succ k ih =>
    intro k₂ s₁ s₂ h₁ h₂ h
    cases k₂ with
    | zero =>
      rw [List.replicate_succ] at h
      simp only [List.replicate_zero, List.nil_append, List.cons_append] at h
      exact absurd rfl (h₂ '0' (by rw [← h]; rfl))
    | succ k' =>
      rw [List.replicate_succ, List.replicate_succ] at h
      simp only [List.cons_append, List.cons.injEq, true_and] at h
      exact ih k' s₁ s₂ h₁ h₂ h

theorem jsToString_data (n : Nat) :
    (jsToString (n + 1)).data
      = ((decDigitsAux (n + 1) (n + 1)).reverse).map digitChar := by
  rw [jsToString, if_neg (Nat.succ_ne_zero n)]

theorem jsToString_head_ne_zero (n : Nat) :
    ∀ c, (jsToString (n + 1)).data.head? = some c → c ≠ '0' := by
  intro c hc
  rw [jsToString_data, List.head?_map, List.head?_reverse] at hc
  cases hl : (decDigitsAux (n + 1) (n + 1)).getLast? with
  | none => rw [hl] at hc; simp at hc
  | some d =>
    rw [hl] at hc
    simp only [Option.map_some'] at hc
    have hd0 : d ≠ 0 :=
      decDigitsAux_getLast_ne_zero (n + 1) (n + 1) (Nat.succ_ne_zero n) (le_refl _) d hl
    have hd10 : d < 10 :=
      decDigitsAux_lt_ten (n + 1) (n + 1) d (getLast?_mem_list _ d hl)
    have : c = digitChar d := by
      simpa using hc.symm
    rw [this]
    exact digitChar_ne_zero_char d hd10 hd0

/-- Distinct counts yield distinct serial numbers. -/
theorem serialFor_injective (n₁ n₂ : Nat) (h : serialFor n₁ = serialFor n₂) :
    n₁ = n₂ := by
  have hdata : "WD-".data ++ (List.replicate (3 - (jsToString (n₁ + 1)).data.length) '0'
        ++ (jsToString (n₁ + 1)).data)
      = "WD-".data ++ (List.replicate (3 - (jsToString (n₂ + 1)).data.length) '0'
        ++ (jsToString (n₂ + 1)).data) := congrArg String.data h
  have h2 := List.append_cancel_left hdata
  have h3 := replicate_zero_append_inj _ _ _ _
    (jsToString_head_ne_zero n₁) (jsToString_head_ne_zero n₂) h2
  rw [jsToString_data, jsToString_data] at h3
  have h4 := map_digitChar_inj _ _
    (fun d hd => decDigitsAux_lt_ten _ _ d (List.mem_reverse.mp hd))
    (fun d hd => decDigitsAux_lt_ten _ _ d (List.mem_reverse.mp hd)) h3
  have h5 : decDigitsAux (n₁ + 1) (n₁ + 1) = decDigitsAux (n₂ + 1) (n₂ + 1) :=
    List.reverse_injective h4
  have h6 := congrArg digitsVal h5
  rw [digitsVal_decDigitsAux (n₁ + 1) (n₁ + 1) (le_refl _),
    digitsVal_decDigitsAux (n₂ + 1) (n₂ + 1) (le_refl _)] at h6
  omega

theorem mapSet_fresh_append {α : Type} (m : List (Nat × α)) (k : Nat) (v : α)
    (h : ∀ e ∈ m, e.1 < k) : mapSet m k v = m ++ [(k, v)] := by
  have hany : m.any (fun e => e.1 == k) = false := by
    refine List.any_eq_false.mpr ?_
    intro e he
    simpa using Nat.ne_of_lt (h e he)
  rw [mapSet, hany]
  simp

/-- Each registration created by a run obeys the serial/QR/status/round
contract, indexed by the number of candidates present when it was made. -/
theorem runRegOps_get (ops : List RegOp) :
    ∀ st : CandState, (∀ e ∈ st.candidates, e.1 < st.candidateCurrentId) →
      ∀ i c, ((runRegOps st ops).2).get? i = some c →
        c.serialNo = serialFor (st.candidates.length + i) ∧
        c.status = "registered" ∧ c.currentRound = "gd" ∧
        c.qrCodeUrl = some (qrUrlFor (serialFor (st.candidates.length + i))) := by
  induction ops with
  | nil => intro st _ i c hc; simp [runRegOps] at hc
  | cons op ops ih =>
    intro st hfresh i c hc
    have hlen : ∀ (nm em ps : String) (t : Nat),
        (registerCandidate st nm em ps t).1.candidates.length
          = st.candidates.length + 1 := by
      intro nm em ps t
      show (mapSet st.candidates st.candidateCurrentId _).length = _
      rw [mapSet_fresh_append _ _ _ hfresh, List.length_append]
      rfl
    have hfresh' : ∀ (nm em ps : String) (t : Nat),
        ∀ e ∈ (registerCandidate st nm em ps t).1.candidates,
          e.1 < (registerCandidate st nm em ps t).1.candidateCurrentId := by
      intro nm em ps t e he
      have he' : e = (st.candidateCurrentId, (registerCandidate st nm em ps t).2)
          ∨ e ∈ st.candidates := mem_mapSet he
      show e.1 < st.candidateCurrentId + 1
      rcases he' with rfl | he'
      · exact Nat.lt_succ_self _
      · exact Nat.lt_succ_of_lt (hfresh e he')
    cases op with
    | webhook nm em ps t =>
      cases i with
      | zero =>
        have hc' : (registerCandidate st nm em ps t).2 = c := by
          simpa [runRegOps] using hc
        subst hc'
        refine ⟨?_, rfl, rfl, ?_⟩
        · show serialFor (mapValues st.candidates).length = _
          rw [show (mapValues st.candidates).length = st.candidates.length from
            List.length_map _ _]
          rw [Nat.add_zero]
        · show some (qrUrlFor (serialFor (mapValues st.candidates).length)) = _
          rw [show (mapValues st.candidates).length = st.candidates.length from
            List.length_map _ _]
          rw [Nat.add_zero]
      | succ i =>
        have hc' : ((runRegOps (registerCandidate st nm em ps t).1 ops).2).get? i
            = some c := by simpa [runRegOps] using hc
        have := ih (registerCandidate st nm em ps t).1 (hfresh' nm em ps t) i c hc'
        rwa [hlen nm em ps t, Nat.add_assoc, Nat.add_comm 1 i] at this
    | manual nm em ps t =>
      cases i with
      | zero =>
        have hc' : (registerCandidate st nm em ps t).2 = c := by
          simpa [runRegOps] using hc
        subst hc'
        refine ⟨?_, rfl, rfl, ?_⟩
        · show serialFor (mapValues st.candidates).length = _
          rw [show (mapValues st.candidates).length = st.candidates.length from
            List.length_map _ _]
          rw [Nat.add_zero]
        · show some (qrUrlFor (serialFor (mapValues st.candidates).length)) = _
          rw [show (mapValues st.candidates).length = st.candidates.length from
            List.length_map _ _]
          rw [Nat.add_zero]
      | succ i =>
        have hc' : ((runRegOps (registerCandidate st nm em ps t).1 ops).2).get? i
            = some c := by simpa [runRegOps] using hc
        have := ih (registerCandidate st nm em ps t).1 (hfresh' nm em ps t) i c hc'
        rwa [hlen nm em ps t, Nat.add_assoc, Nat.add_comm 1 i] at this

/-- C8.  Over any sequence of webhook/manual registrations from the fresh
store, the i-th created candidate (zero-based) carries serial
`"WD-" ++ (i+1) zero-padded to ≥ 3 digits`, the QR url templated from that
serial, status `registered` and round `gd`; and all created serials are
pairwise distinct. -/
theorem webhook_manual_serials (ops : List RegOp) :
    (∀ i c, ((runRegOps initialCandState ops).2).get? i = some c →
      c.serialNo = serialFor i ∧ c.status = "registered" ∧
      c.currentRound = "gd" ∧ c.qrCodeUrl = some (qrUrlFor (serialFor i))) ∧
    ((runRegOps initialCandState ops).2).Pairwise
      (fun a b => a.serialNo ≠ b.serialNo) := by
  have hbase := runRegOps_get ops initialCandState
    (by intro e he; simp [initialCandState] at he)
  constructor
  · intro i c hc
    have hres := hbase i c hc
    rwa [show initialCandState.candidates.length = 0 from rfl, Nat.zero_add] at hres
  · rw [List.pairwise_iff_getElem]
    intro i j hi hj hij
    have h₁ := hbase i _ (List.get?_eq_get hi)
    have h₂ := hbase j _ (List.get?_eq_get hj)
    intro heq
    have hser : serialFor (initialCandState.candidates.length + i)
        = serialFor (initialCandState.candidates.length + j) := by
      rw [← h₁.1, ← h₂.1]
      exact heq
    have := serialFor_injective _ _ hser
    omega

/-- Witness for `webhook_manual_serials`: the second of two registrations
gets serial `WD-002`. -/
theorem webhook_manual_serials_witness :
    candReg1.serialNo = serialFor 1 ∧ candReg1.status = "registered" ∧
    candReg1.currentRound = "gd" ∧
    candReg1.qrCodeUrl = some (qrUrlFor (serialFor 1)) :=
  (webhook_manual_serials regOpsFix).1 1 candReg1 (by decide)

/-! ### C4 — moving a panel between rooms -/

/-- With pairwise-distinct keys, coherent `id` fields and `A` the unique
room whose list passes the predicate, the route's "other rooms holding this
panel" filter returns exactly `[A]`. -/
theorem values_filter_unique (rooms : List (Nat × Room)) (A : Room) (p : Room → Bool)
    (hkeys : rooms.Pairwise (fun a b => a.1 ≠ b.1))
    (hids : ∀ e ∈ rooms, (e.2).id = e.1)
    (hmem : (A.id, A) ∈ rooms)
    (hpA : p A = true)
    (honly : ∀ e ∈ rooms, p e.2 = true → e.2 = A) :
    (mapValues rooms).filter p = [A] := by
  induction rooms with
  | nil => exact absurd hmem (by simp)
  | cons e t ih =>
    rcases List.pairwise_cons.mp hkeys with ⟨hkhead, hktail⟩
    rcases List.mem_cons.mp hmem with he | hmemt
    · have he2 : e.2 = A := by rw [← he]
      have he1 : e.1 = A.id := by rw [← he]
      have hnone : (mapValues t).filter p = [] := by
        refine List.filter_eq_nil_iff.mpr ?_
        intro x hx hpx
        rcases List.mem_map.mp hx with ⟨ex, hex, rfl⟩
        have hxA : ex.2 = A := honly ex (List.mem_cons_of_mem e hex) hpx
        have hx1 : ex.1 = A.id := by
          rw [← hxA]; exact (hids ex (List.mem_cons_of_mem e hex)).symm
        exact hkhead ex hex (by rw [he1, ← hx1])
      show ((e.2 :: mapValues t).filter p) = [A]
      rw [List.filter_cons, he2, hpA]
      simp only [if_true, hnone]
    · have hpe : p e.2 = false := by
        cases hpe : p e.2 with
        | false => rfl
        | true =>
          exfalso
          have heA : e.2 = A := honly e (by simp) hpe
          have he1 : e.1 = A.id := by rw [← heA]; exact (hids e (by simp)).symm
          exact hkhead (A.id, A) hmemt (by rw [he1])
      show ((e.2 :: mapValues t).filter p) = [A]
      rw [List.filter_cons, hpe]
      simp only [Bool.false_eq_true, if_false]
      exact ih hktail (fun x hx => hids x (List.mem_cons_of_mem e hx)) hmemt
        (fun x hx => honly x (List.mem_cons_of_mem e hx))

/-- `updatePanel(pid, { roomNo })` never changes which panel ids exist. -/
theorem mapGet_isSome_setPanelRoomNo (panels : List (Nat × Panel)) (pid : Nat)
    (rn : String) (q : Nat) :
    (mapGet (setPanelRoomNo panels pid rn) q).isSome = (mapGet panels q).isSome := by
  unfold setPanelRoomNo
  cases hp : mapGet panels pid with
  | none => rfl
  | some p =>
    by_cases hq : q = pid
    · subst hq
      rw [mapGet_mapSet_self, hp]
      rfl
    · rw [mapGet_mapSet_ne _ _ _ _ hq]

/-- `removePanelFromRoom` on a room that does hold the panel: the room is
rewritten to the filtered version and the set of existing panels is
unchanged. -/
theorem removePanelFromRoom_found (st : RPState) (roomId panelId : Nat) (room : Room)
    (hr : mapGet st.rooms roomId = some room)
    (hc : room.assignedPanels.contains panelId = true) :
    ∃ st', removePanelFromRoom st roomId panelId
        = some (st', { room with
            assignedPanels := room.assignedPanels.filter (fun i => i != panelId),
            isOccupied :=
              decide ((room.assignedPanels.filter (fun i => i != panelId)).length > 0) }) ∧
      st'.rooms = mapSet st.rooms roomId { room with
            assignedPanels := room.assignedPanels.filter (fun i => i != panelId),
            isOccupied :=
              decide ((room.assignedPanels.filter (fun i => i != panelId)).length > 0) } ∧
      (∀ q, (mapGet st'.panels q).isSome = (mapGet st.panels q).isSome) := by
  unfold removePanelFromRoom
  simp only [hr, hc, if_true]
  cases hp : mapGet st.panels panelId with
  | none => exact ⟨_, rfl, rfl, fun q => rfl⟩
  | some p =>
    by_cases hcmp : (p.roomNo == room.roomNumber) = true
    · simp only [hcmp, if_true]
      exact ⟨_, rfl, rfl, fun q => mapGet_isSome_setPanelRoomNo st.panels panelId "" q⟩
    · simp only [Bool.eq_false_iff.mpr hcmp, Bool.false_eq_true, if_false]
      exact ⟨_, rfl, rfl, fun q => rfl⟩

/-- C4 (amended).  In a coherent state (distinct room keys, `id` fields
matching keys) where `A` is the *only* room listing panel `P` — the room
invariant the detach step maintains — assigning `P` to a different existing
room `B` removes `P` from `A`'s list, recomputes `A`'s occupied flag as
(list non-empty), puts `P` into `B`'s list and sets `B`'s occupied flag
true.  (Without the uniqueness hypothesis the early-return path can hand
back `B` with a stale occupied flag, see the counterexample.) -/
theorem route_assign_moves_panel (st : RPState) (aId bId pId : Nat) (A B : Room)
    (hkeys : st.rooms.Pairwise (fun a b => a.1 ≠ b.1))
    (hids : ∀ e ∈ st.rooms, (e.2).id = e.1)
    (hA : mapGet st.rooms aId = some A)
    (hPinA : A.assignedPanels.contains pId = true)
    (huniq : ∀ e ∈ st.rooms, (e.2).assignedPanels.contains pId = true → e.2 = A)
    (hB : mapGet st.rooms bId = some B)
    (hAB : aId ≠ bId)
    (hp : (mapGet st.panels pId).isSome = true) :
    ∃ A' B',
      mapGet (routeAssignPanel st bId pId).1.rooms aId = some A' ∧
      A'.assignedPanels.contains pId = false ∧
      (A'.isOccupied = true ↔ A'.assignedPanels ≠ []) ∧
      mapGet (routeAssignPanel st bId pId).1.rooms bId = some B' ∧
      B'.assignedPanels.contains pId = true ∧
      B'.isOccupied = true ∧
      (routeAssignPanel st bId pId).2 = some B' := by
  have hAmem : (aId, A) ∈ st.rooms := mapGet_mem hA
  have hBmem : (bId, B) ∈ st.rooms := mapGet_mem hB
  have hAid : A.id = aId := hids (aId, A) hAmem
  have hBid : B.id = bId := hids (bId, B) hBmem
  have hAne : (A.id != bId) = true := by rw [hAid]; exact bne_iff_ne.mpr hAB
  have hothers : (mapValues st.rooms).filter
      (fun r => r.assignedPanels.contains pId && r.id != bId) = [A] := by
    refine values_filter_unique st.rooms A _ hkeys hids (by rw [hAid]; exact hAmem)
      (by rw [hPinA, hAne]; rfl) ?_
    intro e he hpe
    exact huniq e he (Bool.and_elim_left hpe)
  have hBnc : B.assignedPanels.contains pId = false := by
    cases hcb : B.assignedPanels.contains pId with
    | false => rfl
    | true =>
      exfalso
      have hBA : B = A := huniq (bId, B) hBmem hcb
      have h1 : A.id = bId := by rw [← hBA]; exact hBid
      exact hAB (by rw [← hAid, h1])
  obtain ⟨st1, hrem, hst1rooms, hst1panels⟩ :=
    removePanelFromRoom_found st A.id pId A (by rw [hAid]; exact hA) hPinA
  have hp1 : (mapGet st1.panels pId).isSome = true := by
    rw [hst1panels]; exact hp
  obtain ⟨p1, hp1'⟩ := Option.isSome_iff_exists.mp hp1
  have hst1B : mapGet st1.rooms bId = some B := by
    rw [hst1rooms, hAid, mapGet_mapSet_ne st.rooms aId bId _ (Ne.symm hAB)]
    exact hB
  have hst1A : mapGet st1.rooms aId = some { A with
      assignedPanels := A.assignedPanels.filter (fun i => i != pId),
      isOccupied :=
        decide ((A.assignedPanels.filter (fun i => i != pId)).length > 0) } := by
    rw [hst1rooms, hAid]
    exact mapGet_mapSet_self _ _ _
  have hp2 : (mapGet (setPanelRoomNo st1.panels pId B.roomNumber) pId).isSome = true := by
    rw [mapGet_isSome_setPanelRoomNo]; exact hp1
  obtain ⟨p2, hp2'⟩ := Option.isSome_iff_exists.mp hp2
  have hs2B : mapGet ({ st1 with
      panels := setPanelRoomNo st1.panels pId B.roomNumber } : RPState).rooms bId
      = some B := hst1B
  have hassign : assignPanelToRoom
        { st1 with panels := setPanelRoomNo st1.panels pId B.roomNumber } bId pId
      = some ({ rooms := mapSet st1.rooms bId
                  { B with assignedPanels := B.assignedPanels ++ [pId],
                           isOccupied := true },
                panels := setPanelRoomNo (setPanelRoomNo st1.panels pId B.roomNumber)
                  pId B.roomNumber },
              { B with assignedPanels := B.assignedPanels ++ [pId],
                       isOccupied := true }) := by
    unfold assignPanelToRoom
    simp only [hs2B, hp2', hBnc, Bool.false_eq_true, if_false]
  have hroute : routeAssignPanel st bId pId
      = ({ rooms := mapSet st1.rooms bId
             { B with assignedPanels := B.assignedPanels ++ [pId],
                      isOccupied := true },
           panels := setPanelRoomNo (setPanelRoomNo st1.panels pId B.roomNumber)
             pId B.roomNumber },
         some { B with assignedPanels := B.assignedPanels ++ [pId],
                       isOccupied := true }) := by
    unfold routeAssignPanel
    rw [hothers]
    simp only [List.foldl_cons, List.foldl_nil, hrem, hp1', hst1B, hassign]
  have hfinal1 : mapGet (routeAssignPanel st bId pId).1.rooms aId = some { A with
      assignedPanels := A.assignedPanels.filter (fun i => i != pId),
      isOccupied :=
        decide ((A.assignedPanels.filter (fun i => i != pId)).length > 0) } := by
    rw [hroute]
    show mapGet (mapSet st1.rooms bId _) aId = _
    rw [mapGet_mapSet_ne st1.rooms bId aId _ hAB]
    exact hst1A
  have hfinal4 : mapGet (routeAssignPanel st bId pId).1.rooms bId = some { B with
      assignedPanels := B.assignedPanels ++ [pId],
      isOccupied := true } := by
    rw [hroute]
    exact mapGet_mapSet_self _ _ _
  have hfinal7 : (routeAssignPanel st bId pId).2 = some { B with
      assignedPanels := B.assignedPanels ++ [pId],
      isOccupied := true } := by
    rw [hroute]
  exact ⟨_, _, hfinal1, by simp, by simp [List.length_pos], hfinal4, by simp, rfl, hfinal7⟩

/-- Witness for `route_assign_moves_panel`: moving panel 1 from room 1 to
room 2. -/
theorem route_assign_moves_panel_witness :
    ∃ A' B',
      mapGet (routeAssignPanel rpMove 2 1).1.rooms 1 = some A' ∧
      A'.assignedPanels.contains 1 = false ∧
      (A'.isOccupied = true ↔ A'.assignedPanels ≠ []) ∧
      mapGet (routeAssignPanel rpMove 2 1).1.rooms 2 = some B' ∧
      B'.assignedPanels.contains 1 = true ∧
      B'.isOccupied = true ∧
      (routeAssignPanel rpMove 2 1).2 = some B' :=
  route_assign_moves_panel rpMove 1 2 1 roomFix roomB2
    (by decide) (by decide) (by decide) (by decide) (by decide) (by decide)
    (by decide) (by decide)

/-- Counterexample to C4 as stated: in the (PATCH-reachable) state where
panel 7 is listed by both rooms and room 2's occupied flag is stale,
assigning 7 to room 2 hits the early-return path and hands back room 2
with `isOccupied = false`, although the claim requires `true`. -/
theorem route_assign_stale_occupied_counterexample :
    (mapGet rpStale.rooms 1).map (fun r => r.assignedPanels.contains 7) = some true ∧
    (mapGet rpStale.rooms 2).isSome = true ∧
    (mapGet rpStale.panels 7).isSome = true ∧
    ((routeAssignPanel rpStale 2 7).2.map (fun r => r.assignedPanels.contains 7))
      = some true ∧
    ((routeAssignPanel rpStale 2 7).2.map Room.isOccupied) = some false := by
  decide

end Portal
